import Mathlib

/-!
Verification of the maestro declarative workflow compiler: a shallow
embedding of its specification model, template resolver, schema
compatibility validator and graph compiler, with theorems settling the
behavioural claims about them.

JavaScript values flowing through the compiler are modelled by the `Json`
type below; the absent value `undefined` is modelled by `Option Json`
(`none` = undefined).  Property access models own-property lookup of the
plain data objects produced by the YAML/zod parsing pipeline (prototype
properties are not modelled).  Thrown exceptions are modelled with
`Except String`.
-/

namespace Maestro

/-- A single quote character, used when assembling diagnostic messages. -/
def sq : String := (Char.ofNat 39).toString

/-- `String.prototype.split` with a one-character separator (structural on
the character list). -/
def jsSplitAux (sep : Char) : List Char → List Char → List String
  | [], cur => [String.mk cur.reverse]
  | c :: cs, cur =>
      if c = sep then String.mk cur.reverse :: jsSplitAux sep cs []
      else jsSplitAux sep cs (c :: cur)

def jsSplit (sep : Char) (s : String) : List String :=
  jsSplitAux sep s.data []

/-- `String.prototype.trim` (ASCII whitespace; the template expressions and
paths this is applied to do not contain exotic whitespace). -/
def jsTrim (s : String) : String :=
  String.mk (((s.data.dropWhile Char.isWhitespace).reverse.dropWhile
    Char.isWhitespace).reverse)

/-- Parse a canonical decimal numeral (`String.toNat?` semantics,
structural on the characters). -/
def strToNatAux : List Char → Nat → Option Nat
  | [], acc => some acc
  | c :: cs, acc =>
      if 48 ≤ c.toNat ∧ c.toNat ≤ 57 then strToNatAux cs (acc * 10 + (c.toNat - 48))
      else none

def strToNat? (s : String) : Option Nat :=
  match s.data with
  | [] => none
  | ds => strToNatAux ds 0

/-- JSON-like runtime value (the `unknown` of the TypeScript sources).
Numbers are modelled as integers; no claim depends on fractional values. -/
inductive Json where
  | null
  | bool (b : Bool)
  | num (n : Int)
  | str (s : String)
  | arr (elems : List Json)
  | obj (fields : List (String × Json))
deriving Inhabited

namespace Json

mutual
  /-- Structural equality on values, mirroring deep equality of plain data.
  (JS `includes` compares objects by reference; enum members in schemas are
  scalars in practice, where this coincides.) -/
def beq : Json → Json → Bool
    | .null, .null => true
    | .bool a, .bool b => a == b
    | .num a, .num b => a == b
    | .str a, .str b => a == b
    | .arr a, .arr b => beqList a b
    | .obj a, .obj b => beqFields a b
    | _, _ => false
def beqList : List Json → List Json → Bool
    | [], [] => true
    | a :: as, b :: bs => beq a b && beqList as bs
    | _, _ => false
def beqFields : List (String × Json) → List (String × Json) → Bool
    | [], [] => true
    | (k, a) :: as, (l, b) :: bs => k == l && beq a b && beqFields as bs
    | _, _ => false
end

instance : BEq Json := ⟨beq⟩

/-- Own-property lookup on an object (`record[key]` in TypeScript, with
`none` for `undefined`).  Non-objects have no string-keyed own properties
apart from array indices, handled by `jsGet` below. -/
def getField : Json → String → Option Json
  | .obj fields, key => fields.lookup key
  | _, _ => none

/-- Membership test (`key in record`): true when the key is an own property. -/
def hasField (v : Json) (key : String) : Bool :=
  (getField v key).isSome

/-- JS property read used by path traversal: objects by key; arrays answer
canonical numeric indices and `length`; everything else is `undefined`. -/
def jsGet : Json → String → Option Json
  | .obj fields, key => fields.lookup key
  | .arr xs, key =>
      if key = "length" then some (.num (xs.length : Int))
      else
        match strToNat? key with
        | some i => if toString i = key then xs[i]? else none
        | none => none
  | _, _ => none

/-- JS `typeof v === "object" && v !== null`: true for objects and arrays. -/
def isObjectLike : Json → Bool
  | .obj _ => true
  | .arr _ => true
  | _ => false

/-- JS truthiness of a value. -/
def truthy : Json → Bool
  | .null => false
  | .bool b => b
  | .num n => n ≠ 0
  | .str s => s ≠ ""
  | .arr _ => true
  | .obj _ => true

end Json

/-- Issue severity, `"warning" | "error"`. -/
inductive Severity where
  | warning
  | error
deriving DecidableEq, Repr

/-- `SchemaIssue` from validation.ts. -/
structure SchemaIssue where
  message : String
  path : String
  severity : Severity
deriving DecidableEq, Repr

/-- Schema compatibility mode, `"strict" | "warn"`. -/
inductive Mode where
  | strict
  | warn
deriving DecidableEq, Repr

/-- Severity of a mode-dependent issue: `mode === "strict" ? "error" : "warning"`. -/
def Mode.issueSeverity : Mode → Severity
  | .strict => .error
  | .warn => .warning

/-! ### Schema helpers (validation.ts lines 10-133) -/

/-- `SchemaType`: a schema's declared `type`, a string or a list of strings. -/
inductive SchemaType where
  | single (s : String)
  | multi (ts : List String)
deriving DecidableEq, Repr

/-- `getSchemaType`: the declared `type` of a schema, when it is a string
or an array of strings; `none` otherwise (including array-form schemas). -/
def getSchemaType : Json → Option SchemaType
  | .obj fields =>
      match fields.lookup "type" with
      | some (.str s) => some (.single s)
      | some (.arr ts) =>
          match ts.mapM (fun t => match t with | .str s => some s | _ => none) with
          | some ss => some (.multi ss)
          | none => none
      | _ => none
  | _ => none

/-- `getUnionSchemas`: the `oneOf` (else `anyOf`) list of a schema. -/
def getUnionSchemas : Json → List Json
  | .obj fields =>
      match fields.lookup "oneOf" with
      | some (.arr xs) => xs
      | _ =>
          match fields.lookup "anyOf" with
          | some (.arr xs) => xs
          | _ => []
  | _ => []

/-- `isNullable`: the schema's type mentions `"null"`, or some union member
has declared type `"null"`. -/
def isNullable (schema : Json) : Bool :=
  match getSchemaType schema with
  | some (.multi ts) => ts.contains "null"
  | some (.single t) =>
      if t = "null" then true
      else (getUnionSchemas schema).any (fun c => getSchemaType c = some (.single "null"))
  | none => (getUnionSchemas schema).any (fun c => getSchemaType c = some (.single "null"))

/-- `normalizeSchema` returns its argument in every branch of the source. -/
def normalizeSchema (schema : Json) : Json := schema

/-- The scalar-constraint keys inspected by `getScalarConstraints`. -/
def constraintKeys : List String :=
  ["minLength", "maxLength", "pattern", "minimum", "maximum",
   "exclusiveMinimum", "exclusiveMaximum", "enum"]

/-- Keys of `getScalarConstraints`: the constraint keys present on the schema.
(The source builds a record; only the presence of keys is consumed.) -/
def scalarConstraintKeys : Json → List String
  | .obj fields => constraintKeys.filter (fun k => (fields.lookup k).isSome)
  | _ => []

/-- `isEnumCompatible`: when both schemas declare `enum` arrays, every input
enum member must appear among the output enum members. -/
def isEnumCompatible (outputSchema inputSchema : Json) : Bool :=
  match outputSchema, inputSchema with
  | .obj ofs, .obj ifs =>
      match ofs.lookup "enum", ifs.lookup "enum" with
      | some (.arr oe), some (.arr ie) => ie.all (fun v => oe.any (fun w => Json.beq w v))
      | _, _ => true
  | _, _ => true

/-- The list form of a `SchemaType`. -/
def SchemaType.toList : SchemaType → List String
  | .single s => [s]
  | .multi ts => ts

/-- `typeIncludes`: input types must all appear in the output types
(vacuously true when either side declares no type). -/
def typeIncludes (outputType inputType : Option SchemaType) : Bool :=
  match outputType, inputType with
  | some o, some i => i.toList.all (fun t => o.toList.contains t)
  | _, _ => true

/-- `getObjectProps`: the `properties` value of an object-typed schema, when
it is itself object-like. -/
def getObjectProps : Json → Option Json
  | .obj fields =>
      match fields.lookup "type" with
      | some (.str t) =>
          if t = "object" then
            match fields.lookup "properties" with
            | some p => if p.isObjectLike && p.truthy then some p else none
            | none => none
          else none
      | _ => none
  | _ => none

/-- `getRequired`: the string members of the schema's `required` array. -/
def getRequired : Json → List String
  | .obj fields =>
      match fields.lookup "required" with
      | some (.arr xs) => xs.filterMap (fun x => match x with | .str s => some s | _ => none)
      | _ => []
  | _ => []

/-- `getArrayItems`: the `items` value of an array-typed schema, when it is
an object-like value. -/
def getArrayItems : Json → Option Json
  | .obj fields =>
      match fields.lookup "type" with
      | some (.str t) =>
          if t = "array" then
            match fields.lookup "items" with
            | some it => if it.isObjectLike then some it else none
            | none => none
          else none
      | _ => none
  | _ => none

/-- `isArraySchema`: the declared type is `"array"` or a list containing it. -/
def isArraySchema : Json → Bool
  | .obj fields =>
      match fields.lookup "type" with
      | some (.str t) => t = "array"
      | some (.arr ts) => ts.contains (Json.str "array")
      | _ => false
  | _ => false

/-- `key in props` on the producer's `properties` value (JS `in` operator:
object keys; array indices and `length`). -/
def jsHasProp (v : Json) (key : String) : Bool :=
  (v.jsGet key).isSome

/-! ### Diagnostic messages of `validateSchemaCompatibility` -/

/-- `JSON.stringify` of a string (escaping quotes and backslashes; control
characters do not occur in schema type names). -/
def jsonQuote (s : String) : String :=
  "\"" ++ String.mk (s.data.flatMap (fun c =>
    if c = Char.ofNat 34 then [Char.ofNat 92, Char.ofNat 34]
    else if c = Char.ofNat 92 then [Char.ofNat 92, Char.ofNat 92]
    else [c])) ++ "\""

/-- `JSON.stringify` of a declared schema type. -/
def stringifyType : SchemaType → String
  | .single s => jsonQuote s
  | .multi ts => "[" ++ String.intercalate "," (ts.map jsonQuote) ++ "]"

/-- `JSON.stringify` interpolated into a template literal: `undefined`
stringifies to the text `undefined`. -/
def stringifyTypeOpt : Option SchemaType → String
  | some t => stringifyType t
  | none => "undefined"

def typeMismatchMsg (outputType inputType : Option SchemaType) : String :=
  "Schema type mismatch. Output type " ++ stringifyTypeOpt outputType ++
    " does not satisfy input type " ++ stringifyTypeOpt inputType ++ "."

def nullableMsg : String :=
  "Input allows null but output does not appear to be nullable."

def enumMsg : String :=
  "Output enum does not cover all values required by input enum."

def constraintsMsg : String :=
  "Input schema has constraints that are not present in output schema."

def missingKeyMsg (key : String) : String :=
  "Output schema missing required key " ++ sq ++ key ++ sq ++
    " expected by next step input."

/-! ### `validateSchemaCompatibility` (validation.ts lines 135-219) -/

theorem sizeOf_lookup {fields : List (String × Json)} {k : String} {v : Json}
    (h : fields.lookup k = some v) : sizeOf v < sizeOf fields := by
  induction fields with
  | nil => simp [List.lookup] at h
  | cons p rest ih =>
    obtain ⟨k', v'⟩ := p
    rw [List.lookup] at h
    by_cases hk : (k == k') = true
    · simp [hk] at h
      subst h
      simp
      omega
    · simp [hk] at h
      have := ih h
      simp
      omega

theorem sizeOf_getArrayItems {s it : Json} (h : getArrayItems s = some it) :
    sizeOf it + 1 < sizeOf s := by
  rw [getArrayItems.eq_def] at h
  split at h
  case h_1 fields =>
    split at h
    case h_1 t heq =>
      split at h
      case isTrue =>
        split at h
        case h_1 itv hit =>
          split at h
          case isTrue =>
            cases h
            have h1 := sizeOf_lookup hit
            simp only [Json.obj.sizeOf_spec]
            omega
          case isFalse => cases h
        case h_2 => cases h
      case isFalse => cases h
    case h_2 => cases h
  case h_2 => cases h

mutual
  /-- `validateSchemaCompatibility`: pairwise compatibility of a producer
  output schema against a consumer input schema, recursing into array items
  (the items recursion is the factored-out `compatItems`).  A type mismatch
  short-circuits; the remaining rules accumulate. -/
def validateSchemaCompatibility (o i : Option Json) (path : String) (mode : Mode) :
      List SchemaIssue :=
    match o, i with
    | some o', some i' =>
      let no := normalizeSchema o'
      let ni := normalizeSchema i'
      let outputType := getSchemaType no
      let inputType := getSchemaType ni
      if ¬ typeIncludes outputType inputType then
        [⟨typeMismatchMsg outputType inputType, path, mode.issueSeverity⟩]
      else
        (if isNullable ni && ¬ isNullable no then
            [⟨nullableMsg, path, Severity.warning⟩] else [])
        ++ (if ¬ isEnumCompatible no ni then
            [⟨enumMsg, path, mode.issueSeverity⟩] else [])
        ++ (if ¬ (scalarConstraintKeys ni).isEmpty ∧ (scalarConstraintKeys no).isEmpty then
            [⟨constraintsMsg, path, Severity.warning⟩] else [])
        ++ (if inputType = some (.single "object") ∧ outputType = some (.single "object") then
            let outputProps := (getObjectProps no).getD (Json.obj [])
            (getRequired ni).filterMap (fun key =>
              if jsHasProp outputProps key then none
              else some ⟨missingKeyMsg key, path, Severity.warning⟩)
            else [])
        ++ (if inputType = some (.single "array") ∧ outputType = some (.single "array") then
            compatItems no ni path mode
            else [])
    | _, _ => []
  termination_by sizeOf o
  decreasing_by
    simp_wf
    simp [normalizeSchema]
  /-- The array-item recursion of `validateSchemaCompatibility`: when both
  schemas carry object-like `items`, recurse with the path suffixed. -/
def compatItems (no ni : Json) (path : String) (mode : Mode) : List SchemaIssue :=
    match ho : getArrayItems no, getArrayItems ni with
    | some outputItems, some inputItems =>
        validateSchemaCompatibility (some outputItems) (some inputItems)
          (path ++ ".items") mode
    | _, _ => []
  termination_by sizeOf no
  decreasing_by
    simp_wf
    have h1 := sizeOf_getArrayItems ho
    omega
end

/-! ### JS string conversion (`String(value)` and array join) -/

mutual
  /-- JS `String(v)` for the values of our model. -/
def jsToString : Json → String
    | .null => "null"
    | .bool b => cond b "true" "false"
    | .num n => toString n
    | .str s => s
    | .arr xs => jsToStringArr xs
    | .obj _ => "[object Object]"
  /-- `Array.prototype.join(",")`: elements stringified, `null` renders empty. -/
def jsToStringArr : List Json → String
    | [] => ""
    | [x] => (match x with | .null => "" | v => jsToString v)
    | x :: xs => (match x with | .null => "" | v => jsToString v) ++ "," ++ jsToStringArr xs
end

/-- `String(x)` applied to a possibly-`undefined` value. -/
def jsToStringOpt : Option Json → String
  | some v => jsToString v
  | none => "undefined"

/-! ### Specification model (spec.ts) -/

/-- Workflow options (`WorkflowOptionsSchema`); the retry configuration is
passed through opaquely and not modelled further. -/
structure WorkflowOptions where
  validateInputs : Option Bool := none
  schemaCompatibility : Option Mode := none
deriving DecidableEq, Repr

/-- The `when` / `condition` block of branch arms and do-while/do-until
steps: a handler id, declared schemas, and optional parameters. -/
structure CondSpec where
  handler : String
  inputSchema : Json
  outputSchema : Json
  params : Option Json := none

/-- The leaf variants that target `registry[ns][handler]` through a
`handler` field: memory, vectorStore, rag, http, logger, requestContext. -/
inductive HandlerNs where
  | memory | vectorStore | rag | http | logger | requestContext
deriving DecidableEq, Repr

def HandlerNs.typeName : HandlerNs → String
  | .memory => "memory"
  | .vectorStore => "vectorStore"
  | .rag => "rag"
  | .http => "http"
  | .logger => "logger"
  | .requestContext => "requestContext"

/-- The leaf variants whose compiled handler id is `type.id`: voice,
document-processing and GraphRAG steps. -/
inductive TypedNs where
  | tts | listen | documentChunk | documentMetadata | documentTransform
  | graphRag | graphRagQuery
deriving DecidableEq, Repr

def TypedNs.typeName : TypedNs → String
  | .tts => "tts"
  | .listen => "listen"
  | .documentChunk => "documentChunk"
  | .documentMetadata => "documentMetadata"
  | .documentTransform => "documentTransform"
  | .graphRag => "graphRag"
  | .graphRagQuery => "graphRagQuery"

/-- `StepSpec`: the tagged union of step variants (`StepNode` in spec.ts).
Fields not consumed by the validator or compiler (prompt metadata details,
document strategies, and similar pass-through data) are kept only where a
modelled component reads them. -/
inductive StepSpec where
  /-- `type: step` (GenericStep): required id/schemas/action. -/
  | step (id : String) (inputSchema outputSchema : Json) (action : String)
      (params : Option Json) (retries : Option Int) (description : Option String)
  /-- `type: agent`. -/
  | agent (id : String) (inputSchema outputSchema : Json) (agent : String)
      (params : Option Json) (description : Option String)
  /-- `type: tool`. -/
  | tool (id : String) (inputSchema outputSchema : Json) (tool : String)
      (params : Option Json) (description : Option String)
  /-- `type: mcp`: carries a `server` and a `tool` field. -/
  | mcp (id : String) (inputSchema outputSchema : Json) (server : String)
      (tool : String) (description : Option String)
  /-- `type: network`. -/
  | network (id : String) (inputSchema outputSchema : Json) (network : String)
      (description : Option String)
  /-- `type: evals`: carries a `scorer`. -/
  | evals (id : String) (inputSchema outputSchema : Json) (scorer : String)
      (description : Option String)
  /-- memory / vectorStore / rag / http / logger / requestContext steps. -/
  | handlerStep (ns : HandlerNs) (id : String) (inputSchema outputSchema : Json)
      (handler : String) (params : Option Json) (description : Option String)
  /-- tts / listen / document* / graphRag* steps. -/
  | typedStep (ns : TypedNs) (id : String) (inputSchema outputSchema : Json)
      (description : Option String)
  /-- `type: sleep`. -/
  | sleep (ms : Int) (id : Option String)
  /-- `type: sleepUntil`. -/
  | sleepUntil (date : String) (id : Option String)
  /-- `type: humanInput` (inputType/options/timeout metadata elided). -/
  | humanInput (prompt : String) (id : Option String)
  /-- `type: bail`: optional condition expression and a payload record. -/
  | bail (whenCond : Option String) (payload : Json) (id : Option String)
  /-- `type: suspend` (waitFor/timeout/resumeSchema metadata elided). -/
  | suspend (id : Option String) (prompt : String)
  /-- `type: resume`. -/
  | resume (id : Option String) (data : Json)
  /-- `type: map`: a record of mapping entries, kept as raw values exactly
  as `validateMappings` receives them. -/
  | map (mappings : List (String × Json)) (id : Option String)
  /-- `type: foreach`: optional concurrency bound and a single body step. -/
  | foreach (concurrency : Option Int) (step : StepSpec)
  /-- `type: branch`: ordered arms of condition plus nested sequence. -/
  | branch (branches : List (CondSpec × List StepSpec))
  /-- `type: parallel`. -/
  | parallel (steps : List StepSpec)
  /-- `type: dowhile`. -/
  | dowhile (step : StepSpec) (condition : CondSpec)
  /-- `type: dountil`. -/
  | dountil (step : StepSpec) (condition : CondSpec)
  /-- `type: workflow`: a sub-workflow reference with optional remapping. -/
  | workflow (workflowId : String) (inputMapping : Option (List (String × Json)))

namespace StepSpec

/-- `"id" in step && typeof step.id === "string"`. -/
def idOf : StepSpec → Option String
  | .step i .. => some i
  | .agent i .. => some i
  | .tool i .. => some i
  | .mcp i .. => some i
  | .network i .. => some i
  | .evals i .. => some i
  | .handlerStep _ i .. => some i
  | .typedStep _ i .. => some i
  | .sleep _ i => i
  | .sleepUntil _ i => i
  | .humanInput _ i => i
  | .bail _ _ i => i
  | .suspend i _ => i
  | .resume i _ => i
  | .map _ i => i
  | .foreach .. => none
  | .branch _ => none
  | .parallel _ => none
  | .dowhile .. => none
  | .dountil .. => none
  | .workflow .. => none

/-- `inputSchemaFromStep`: the declared input schema, for variants that
carry one (`"inputSchema" in step`). -/
def inputSchemaOf : StepSpec → Option Json
  | .step _ i .. => some i
  | .agent _ i .. => some i
  | .tool _ i .. => some i
  | .mcp _ i .. => some i
  | .network _ i .. => some i
  | .evals _ i .. => some i
  | .handlerStep _ _ i .. => some i
  | .typedStep _ _ i .. => some i
  | _ => none

/-- `schemaFromStep`: the declared output schema, when present. -/
def outputSchemaOf : StepSpec → Option Json
  | .step _ _ o .. => some o
  | .agent _ _ o .. => some o
  | .tool _ _ o .. => some o
  | .mcp _ _ o .. => some o
  | .network _ _ o .. => some o
  | .evals _ _ o .. => some o
  | .handlerStep _ _ _ o .. => some o
  | .typedStep _ _ _ o .. => some o
  | _ => none

/-- `"action" in step`: the generic step's action name. -/
def actionOf : StepSpec → Option String
  | .step _ _ _ a .. => some a
  | _ => none

/-- `"agent" in step`: the agent step's agent name. -/
def agentFieldOf : StepSpec → Option String
  | .agent _ _ _ a .. => some a
  | _ => none

/-- `"tool" in step`: present on tool steps and on mcp steps. -/
def toolFieldOf : StepSpec → Option String
  | .tool _ _ _ t .. => some t
  | .mcp _ _ _ _ t _ => some t
  | _ => none

end StepSpec

/-- Step ids available to mapping references: every step of the sequence
that carries a string id (collected up front, before any entry is checked). -/
def collectIds (steps : List StepSpec) : List String :=
  steps.filterMap StepSpec.idOf

/-- The workflow specification (`WorkflowSpecSchema`), restricted to the
fields the validator and compiler consume. -/
structure WorkflowSpec where
  id : String
  inputSchema : Json
  outputSchema : Json
  stateSchema : Option Json := none
  requestContextSchema : Option Json := none
  options : Option WorkflowOptions := none
  steps : List StepSpec

/-! ### External-runtime graph model

The mastra runtime is out of scope; its graph-building primitives
(`createWorkflow`, `then`, `parallel`, `branch`, `foreach`, `dowhile`,
`dountil`, `map`, `sleep`, `sleepUntil`, `commit`) are modelled as free
constructors recording exactly the data the compiler hands them.  `toZod`
(external schema conversion) is modelled as carrying the JSON schema
unchanged.  Pause-style steps compile to closures whose runtime ids are
drawn from a clock/uuid source; the model keeps the caller-declared
optional id, which is all any modelled claim consumes. -/

/-- One entry of the runtime's `map` configuration, as built by
`buildMapping`. -/
inductive MapTarget where
  /-- `{ value: mapping.value }`. -/
  | valueT (v : Json)
  /-- `{ requestContextPath: mapping.path, schema: toZod({}) }`. -/
  | requestContextT (path : Option Json)
  /-- `{ initData: true, path: mapping.path }`. -/
  | initT (path : Option Json)
  /-- `{ step: mapping.stepId, path: mapping.path }`. -/
  | stepT (stepId : Option Json) (path : Option Json)

mutual
  /-- A runtime workflow graph: the `createWorkflow` arguments plus the
  recorded sequence of composition calls. -/
inductive Graph where
    | mk (id : String) (inputSchema outputSchema : Json)
        (stateSchema : Option Json) (requestContextSchema : Option Json)
        (options : Option WorkflowOptions) (nodes : List GraphNode)
  /-- One composition call applied to a workflow under construction. -/
inductive GraphNode where
    | thenStep (s : BuiltStep)
    | mapNode (cfg : List (String × MapTarget)) (id : Option String)
    | sleepNode (ms : Int)
    | sleepUntilNode (date : String)
    | parallelNode (ss : List BuiltStep)
    | branchNode (arms : List (CondSpec × BuiltStep))
    | foreachNode (s : BuiltStep) (concurrency : Int)
    | dowhileNode (s : BuiltStep) (cond : CondSpec)
    | dountilNode (s : BuiltStep) (cond : CondSpec)
  /-- A schedulable step handed to a composition call. -/
inductive BuiltStep where
    /-- `createStep` over a leaf spec: the execute closure resolves
    `params` and invokes the handler named `handlerId`. -/
    | leaf (id : String) (description : Option String)
        (inputSchema outputSchema : Json) (retries : Option Int)
        (handlerId : String) (params : Option Json)
    /-- A (nested or branch-arm) workflow used as a step. -/
    | graphStep (g : Graph)
    | humanInputStep (id : Option String) (prompt : String)
    | bailStep (id : Option String) (whenCond : Option String) (payload : Json)
    | suspendStep (id : Option String) (prompt : String)
    | resumeStep (id : Option String) (data : Json)
end

/-- Append a composition call to a graph under construction. -/
def Graph.push : Graph → GraphNode → Graph
  | .mk i is os ss rcs opts nodes, n => .mk i is os ss rcs opts (nodes ++ [n])

def Graph.id : Graph → String
  | .mk i .. => i

def Graph.inputSchema : Graph → Json
  | .mk _ is .. => is

def Graph.nodes : Graph → List GraphNode
  | .mk _ _ _ _ _ _ ns => ns

/-- Rename a graph (`cloneWorkflow(nested, { id })`). -/
def Graph.withId : Graph → String → Graph
  | .mk _ is os ss rcs opts nodes, i => .mk i is os ss rcs opts nodes

/-! ### Handler registry (registry.ts) -/

/-- The handler registry, modelled by the names registered in each bucket
(the invocable units themselves live beyond the compile-time boundary);
`workflows` carries the already-compiled sub-graphs. -/
structure HandlerRegistry where
  handlers : List String := []
  agents : List String := []
  tools : List String := []
  workflows : List (String × Graph) := []
  networks : List String := []
  voice : List String := []
  document : List String := []
  graphRag : List String := []
  evals : List String := []
  memory : List String := []
  vectorStore : List String := []
  rag : List String := []
  http : List String := []
  logger : List String := []
  requestContext : List String := []
  mcp : List String := []

/-- Generic field access `(registry as Record<string, unknown>)[namespace]`:
the names registered under a bucket field of the registry object. -/
def bucketNames (r : HandlerRegistry) (ns : String) : Option (List String) :=
  if ns = "handlers" then some r.handlers
  else if ns = "agents" then some r.agents
  else if ns = "tools" then some r.tools
  else if ns = "workflows" then some (r.workflows.map Prod.fst)
  else if ns = "networks" then some r.networks
  else if ns = "voice" then some r.voice
  else if ns = "document" then some r.document
  else if ns = "graphRag" then some r.graphRag
  else if ns = "evals" then some r.evals
  else if ns = "memory" then some r.memory
  else if ns = "vectorStore" then some r.vectorStore
  else if ns = "rag" then some r.rag
  else if ns = "http" then some r.http
  else if ns = "logger" then some r.logger
  else if ns = "requestContext" then some r.requestContext
  else if ns = "mcp" then some r.mcp
  else none

/-- Splitting of a handler id: `handlerId.includes(".") ?
handlerId.split(".") : ["handlers", handlerId]`, destructured to its first
two components. -/
def splitHandlerId (handlerId : String) : String × String :=
  match jsSplit (Char.ofNat 46) handlerId with
  | [_single] => ("handlers", handlerId)
  | p0 :: p1 :: _ => (p0, p1)
  | [] => ("handlers", handlerId)

/-- `handlerExists` (validation.ts): presence check used by
`validateHandlers`. -/
def handlerExists (r : HandlerRegistry) (handlerId : String) : Bool :=
  let (ns, name) := splitHandlerId handlerId
  if ns = "handlers" then r.handlers.contains name
  else if ns = "agent" then r.agents.contains name
  else if ns = "tool" then r.tools.contains name
  else ((bucketNames r ns).getD []).contains name

/-- `resolveHandler` (registry.ts): resolve a dotted or bare identifier to
an invocable unit, or fail naming it.  The returned unit is beyond the
model boundary, so success is `Unit`. -/
def resolveHandler (r : HandlerRegistry) (handlerId : String) : Except String Unit :=
  let parts := jsSplit (Char.ofNat 46) handlerId
  let (ns, name) := splitHandlerId handlerId
  if ns = "handlers" then
    if r.handlers.contains name then .ok () else .error ("Missing handler: " ++ handlerId)
  else if ns = "agent" then
    if r.agents.contains name then .ok () else .error ("Missing agent: " ++ handlerId)
  else if ns = "tool" then
    if r.tools.contains name then .ok () else .error ("Missing tool: " ++ handlerId)
  else if ns = "mcp" then
    if parts.length ≥ 3 then
      let serverName := parts[1]!
      let toolName := String.intercalate "." (parts.drop 2)
      let key := serverName ++ "." ++ toolName
      if r.mcp.contains key then .ok ()
      else .error ("Missing MCP handler: " ++ handlerId)
    else .error ("Invalid MCP handler ID format: " ++ handlerId)
  else if ns = "network" then
    if r.networks.contains name then .ok ()
    else .error ("Missing network handler: " ++ handlerId)
  else if ns = "tts" ∨ ns = "listen" then
    if r.voice.contains name then .ok ()
    else .error ("Missing voice handler: " ++ handlerId)
  else if ns = "documentChunk" ∨ ns = "documentMetadata" ∨ ns = "documentTransform" then
    if r.document.contains name then .ok ()
    else .error ("Missing document handler: " ++ handlerId)
  else if ns = "graphRag" ∨ ns = "graphRagQuery" then
    if r.graphRag.contains name then .ok ()
    else .error ("Missing GraphRAG handler: " ++ handlerId)
  else if ns = "evals" then
    if r.evals.contains name then .ok ()
    else .error ("Missing eval scorer: " ++ handlerId)
  else
    match bucketNames r ns with
    | some bucket =>
        if bucket.contains name then .ok ()
        else .error ("Missing handler: " ++ handlerId)
    | none => .error ("Missing handler: " ++ handlerId)

/-! ### Mapping validation (validation.ts lines 221-275) -/

/-- `v === "<t>"` for a possibly-undefined value. -/
def optIsStr (v : Option Json) (t : String) : Bool :=
  match v with
  | some (.str s) => s = t
  | _ => false

/-- `typeof v === "string"` for a possibly-undefined value. -/
def optIsString (v : Option Json) : Bool :=
  match v with
  | some (.str _) => true
  | _ => false

def mappingNotObjectMsg : String := "Mapping entry must be an object."

def unknownStepMsg (stepId : String) : String :=
  "Mapping references unknown step " ++ sq ++ stepId ++ sq ++ "."

def badFromMsg : String :=
  "Mapping " ++ sq ++ "from" ++ sq ++ " must be one of " ++ sq ++ "step" ++ sq ++
    ", " ++ sq ++ "init" ++ sq ++ ", or " ++ sq ++ "requestContext" ++ sq ++ "."

def mappingPathMsg : String := "Mapping path should be a string."

/-- Issues contributed by one mapping entry of `validateMappings`. -/
def mappingEntryIssues (availableSteps : List String) (path key : String)
    (mapping : Json) : List SchemaIssue :=
  if ¬ mapping.isObjectLike then
    [⟨mappingNotObjectMsg, path ++ "." ++ key, .error⟩]
  else if mapping.hasField "value" then []
  else
    let fromV := mapping.getField "from"
    (if optIsStr fromV "step" then
        match mapping.getField "stepId" with
        | some (.str sid) =>
            if availableSteps.contains sid then []
            else [⟨unknownStepMsg sid, path ++ "." ++ key, .error⟩]
        | other => [⟨unknownStepMsg (jsToStringOpt other), path ++ "." ++ key, .error⟩]
      else [])
    ++ (if ¬ (optIsStr fromV "step" ∨ optIsStr fromV "init" ∨ optIsStr fromV "requestContext") then
        [⟨badFromMsg, path ++ "." ++ key, .error⟩]
      else [])
    ++ (if ¬ optIsStr fromV "step" ∧ ¬ optIsString (mapping.getField "path") then
        [⟨mappingPathMsg, path ++ "." ++ key, .warning⟩]
      else [])

/-- `validateMappings`: entry-wise checks of a mapping record against the
step ids available in the enclosing scope. -/
def validateMappings (mappings : List (String × Json)) (availableSteps : List String)
    (path : String) : List SchemaIssue :=
  mappings.flatMap (fun kv => mappingEntryIssues availableSteps path kv.1 kv.2)

/-! ### Sequence validation (validation.ts lines 277-411) -/

/-- `computeForeachOutput`: a foreach step's effective output is an array
of its body's declared output. -/
def computeForeachOutput : StepSpec → Option Json
  | .foreach _ body =>
      (body.outputSchemaOf).map (fun io => Json.obj [("type", .str "array"), ("items", io)])
  | s => s.outputSchemaOf

def foreachMsg : String := "Foreach expects previous output to be an array schema."

/-- The opaque `{ type: "object" }` carried-forward shape after map and
workflow steps. -/
def opaqueObjectSchema : Json := Json.obj [("type", .str "object")]

theorem sizeOf_pos_list {α} [SizeOf α] (l : List α) : 0 < sizeOf l := by
  cases l <;> simp_arith

/-- Compatibility issues of the members of a parallel step against the
pre-parallel shape. -/
def parallelIssues (members : List StepSpec) (pIdx idx : Nat) (path : String)
    (mode : Mode) (prev : Option Json) : List SchemaIssue :=
  match members with
  | [] => []
  | s :: ss =>
      validateSchemaCompatibility prev s.inputSchemaOf
        (path ++ ".parallel." ++ toString idx ++ "." ++ toString pIdx) mode
      ++ parallelIssues ss (pIdx + 1) idx path mode prev

mutual
  /-- The main walk of `validateSequence`: one step at a time, carrying the
  index, the carried-forward output shape, and the scope's available step
  ids. -/
def validateSequenceAux (steps : List StepSpec) (idx : Nat) (path : String)
      (mode : Mode) (prev : Option Json) (avail : List String) : List SchemaIssue :=
    match steps with
    | [] => []
    | step :: rest =>
      match step with
      | .branch arms =>
          validateBranchArms arms 0 idx path mode prev
            ++ validateSequenceAux rest (idx + 1) path mode none avail
      | .parallel members =>
          parallelIssues members 0 idx path mode prev
            ++ validateSequenceAux rest (idx + 1) path mode none avail
      | .map mappings _ =>
          validateMappings mappings avail (path ++ ".map." ++ toString idx)
            ++ validateSequenceAux rest (idx + 1) path mode (some opaqueObjectSchema) avail
      | .workflow _ inputMapping =>
          (match inputMapping with
           | some m => validateMappings m avail (path ++ ".workflow." ++ toString idx)
           | none => [])
            ++ validateSequenceAux rest (idx + 1) path mode (some opaqueObjectSchema) avail
      | .sleep _ _ =>
          validateSequenceAux rest (idx + 1) path mode prev avail
      | .sleepUntil _ _ =>
          validateSequenceAux rest (idx + 1) path mode prev avail
      | .foreach _ _ =>
          (match prev with
           | some p =>
               if ¬ isArraySchema p then
                 [⟨foreachMsg, path ++ ".steps." ++ toString idx, mode.issueSeverity⟩]
               else []
           | none => [])
            ++ validateSchemaCompatibility prev step.inputSchemaOf
                (path ++ ".steps." ++ toString idx) mode
            ++ validateSequenceAux rest (idx + 1) path mode (computeForeachOutput step) avail
      | _ =>
          validateSchemaCompatibility prev step.inputSchemaOf
            (path ++ ".steps." ++ toString idx) mode
            ++ validateSequenceAux rest (idx + 1) path mode step.outputSchemaOf avail
  termination_by sizeOf steps
  /-- Branch arms: each arm's first-step input is checked against the
  pre-branch shape, and the arm's sequence is validated independently with
  the pre-branch shape as its starting context. -/
def validateBranchArms (arms : List (CondSpec × List StepSpec)) (bIdx idx : Nat)
      (path : String) (mode : Mode) (prev : Option Json) : List SchemaIssue :=
    match arms with
    | [] => []
    | (_, armSteps) :: rest =>
        let armPath := path ++ ".branch." ++ toString idx ++ ".branches." ++ toString bIdx
        validateSchemaCompatibility prev (armSteps.head?.bind StepSpec.inputSchemaOf)
          armPath mode
          ++ validateSequenceAux armSteps 0 (armPath ++ ".steps") mode prev (collectIds armSteps)
          ++ validateBranchArms rest (bIdx + 1) idx path mode prev
  termination_by sizeOf arms
end

/-- `validateSequence`: validate a step sequence, collecting the ids of all
its steps up front as the scope for mapping references. -/
def validateSequence (steps : List StepSpec) (path : String) (mode : Mode)
    (inputSchema : Option Json) : List SchemaIssue :=
  validateSequenceAux steps 0 path mode inputSchema (collectIds steps)

/-! ### Step-tree traversal and unique ids (validation.ts lines 413-471) -/

mutual
  /-- `visitSteps`, reified as the pre-order list of visited (step, path)
  pairs: each step is visited before its nested branch arms, parallel
  members, and foreach/dowhile/dountil bodies. -/
def visitListAux (steps : List StepSpec) (basePath : String) (idx : Nat) :
      List (StepSpec × String) :=
    match steps with
    | [] => []
    | step :: rest =>
        let stepPath := basePath ++ "." ++ toString idx
        ((step, stepPath) ::
          (match step with
           | .branch arms => visitArms arms stepPath 0
           | .parallel members => visitListAux members (stepPath ++ ".steps") 0
           | .foreach conc body => visitListAux [body] (stepPath ++ ".step") 0
           | .dowhile body cond => visitListAux [body] (stepPath ++ ".step") 0
           | .dountil body cond => visitListAux [body] (stepPath ++ ".step") 0
           | _ => []))
          ++ visitListAux rest basePath (idx + 1)
  termination_by sizeOf steps
  decreasing_by
    all_goals simp_wf
    all_goals try simp
    all_goals first
      | omega
      | (have hrest := sizeOf_pos_list ss; omega)
def visitArms (arms : List (CondSpec × List StepSpec)) (stepPath : String)
      (bIdx : Nat) : List (StepSpec × String) :=
    match arms with
    | [] => []
    | (_, armSteps) :: rest =>
        visitListAux armSteps (stepPath ++ ".branches." ++ toString bIdx ++ ".steps") 0
          ++ visitArms rest stepPath (bIdx + 1)
  termination_by sizeOf arms
end

def visitList (steps : List StepSpec) (basePath : String) : List (StepSpec × String) :=
  visitListAux steps basePath 0

/-- The visited steps that carry a string id, as (id, path) pairs in visit
order. -/
def visitIds (steps : List StepSpec) (basePath : String) : List (String × String) :=
  (visitList steps basePath).filterMap (fun sp => (sp.1.idOf).map (fun i => (i, sp.2)))

def dupMsg (id existing : String) : String :=
  "Duplicate step id " ++ sq ++ id ++ sq ++ " previously defined at " ++ existing ++ "."

/-- The fold of `validateUniqueStepIds` over the visited ids: `seen` maps
each id to the `<path>.id` of its first occurrence; a repeated id yields an
error and leaves `seen` unchanged. -/
def uniqueAux : List (String × String) → List (String × String) → List SchemaIssue
  | [], _ => []
  | (id, path) :: rest, seen =>
      match seen.lookup id with
      | some existing => ⟨dupMsg id existing, path ++ ".id", .error⟩ :: uniqueAux rest seen
      | none => uniqueAux rest ((id, path ++ ".id") :: seen)

/-- `validateUniqueStepIds`: duplicate-id errors across the whole tree. -/
def validateUniqueStepIds (steps : List StepSpec) (basePath : String) : List SchemaIssue :=
  uniqueAux (visitIds steps basePath) []

/-! ### Handler-existence validation (validation.ts lines 486-558) -/

def missingHandlerIssueMsg (name : String) : String := "Missing handler: " ++ name ++ "."
def missingAgentIssueMsg (name : String) : String := "Missing agent: " ++ name ++ "."
def missingToolIssueMsg (name : String) : String := "Missing tool: " ++ name ++ "."
def missingWorkflowIssueMsg (name : String) : String := "Missing workflow: " ++ name ++ "."

/-- Branch-arm condition handlers checked in arm order. -/
def armHandlerIssues (r : HandlerRegistry) (path : String) :
    List (CondSpec × List StepSpec) → Nat → List SchemaIssue
  | [], _ => []
  | (cond, _) :: rest, bIdx =>
      (if ¬ handlerExists r cond.handler then
          [⟨missingHandlerIssueMsg cond.handler,
            path ++ ".branches." ++ toString bIdx ++ ".when.handler", .error⟩]
        else [])
      ++ armHandlerIssues r path rest (bIdx + 1)

/-- The handler checks applied to one visited step. -/
def stepHandlerIssues (r : HandlerRegistry) (step : StepSpec) (path : String) :
    List SchemaIssue :=
  (match step.actionOf with
   | some a =>
      if ¬ handlerExists r ("handlers." ++ a) then
        [⟨missingHandlerIssueMsg a, path ++ ".action", .error⟩]
      else []
   | none => [])
  ++ (match step.agentFieldOf with
   | some a =>
      if ¬ handlerExists r ("agent." ++ a) then
        [⟨missingAgentIssueMsg a, path ++ ".agent", .error⟩]
      else []
   | none => [])
  ++ (match step.toolFieldOf with
   | some t =>
      if ¬ handlerExists r ("tool." ++ t) then
        [⟨missingToolIssueMsg t, path ++ ".tool", .error⟩]
      else []
   | none => [])
  ++ (match step with
   | .branch arms => armHandlerIssues r path arms 0
   | .dowhile _ cond =>
      if ¬ handlerExists r cond.handler then
        [⟨missingHandlerIssueMsg cond.handler, path ++ ".condition.handler", .error⟩]
      else []
   | .dountil _ cond =>
      if ¬ handlerExists r cond.handler then
        [⟨missingHandlerIssueMsg cond.handler, path ++ ".condition.handler", .error⟩]
      else []
   | .workflow wid _ =>
      if (r.workflows.lookup wid).isNone then
        [⟨missingWorkflowIssueMsg wid, path ++ ".workflowId", .error⟩]
      else []
   | _ => [])

/-- `validateHandlers`: handler-existence checks over the visited tree. -/
def validateHandlers (steps : List StepSpec) (basePath : String)
    (r : HandlerRegistry) : List SchemaIssue :=
  (visitList steps basePath).flatMap (fun sp => stepHandlerIssues r sp.1 sp.2)

/-! ### `validateWorkflowSchemas` (validation.ts lines 560-581) -/

def validateWorkflowSchemas (spec : WorkflowSpec) (registry : Option HandlerRegistry) :
    List SchemaIssue :=
  let basePath := spec.id ++ ".steps"
  let mode := (spec.options.bind (fun o => o.schemaCompatibility)).getD .warn
  (validateSequence spec.steps spec.id mode (some spec.inputSchema)
    ++ validateUniqueStepIds spec.steps basePath)
  ++ (match registry with
      | some r => validateHandlers spec.steps basePath r
      | none => [])

/-! ### Template and path-expression resolution (templating.ts) -/

/-- The four-rooted resolution context. -/
structure TemplateContext where
  inputData : Json
  steps : Json
  initData : Json
  requestContext : Json

/-- The traversal loop of `getPathValue`: field access part by part;
traversal into a non-object value, or a missing key, yields `undefined`. -/
def walkPath : List String → Json → Option Json
  | [], current => some current
  | part :: parts, current =>
      if current.isObjectLike then
        match current.jsGet part with
        | some v => walkPath parts v
        | none => none
      else none

/-- `getPathValue`: dot-separated traversal; the empty path returns the
source itself. -/
def getPathValue (source : Json) (path : String) : Option Json :=
  if path = "" then some source
  else walkPath (jsSplit (Char.ofNat 46) path) source

def dollarChar : Char := Char.ofNat 36
def lbraceChar : Char := Char.ofNat 123
def rbraceChar : Char := Char.ofNat 125

/-- Scan to the first unescaped closing brace, returning the characters
before it and those after. -/
def takeUntilRBrace : List Char → Option (List Char × List Char)
  | [] => none
  | c :: cs =>
      if c = rbraceChar then some ([], cs)
      else (takeUntilRBrace cs).map (fun r => (c :: r.1, r.2))

/-- A match of `\$\{([^}]+)\}` at the start of the input: the captured
expression (at least one non-brace character) and the remaining input. -/
def startMatch : List Char → Option (List Char × List Char)
  | c :: d :: rest =>
      if c = dollarChar ∧ d = lbraceChar then
        match takeUntilRBrace rest with
        | some (e, a) => if e.isEmpty then none else some (e, a)
        | none => none
      else none
  | _ => none

/-- The first match of the template pattern anywhere in the input:
`(before, expression, after)`.  Like the regex engine, a failed match
attempt at one position resumes scanning at the next. -/
def findExpr : List Char → Option (List Char × List Char × List Char)
  | [] => none
  | c :: cs =>
      match startMatch (c :: cs) with
      | some (e, a) => some ([], e, a)
      | none => (findExpr cs).map (fun r => (c :: r.1, r.2.1, r.2.2))

theorem takeUntilRBrace_after_lt :
    ∀ {l : List Char} {r}, takeUntilRBrace l = some r → r.2.length < l.length := by
  intro l
  induction l with
  | nil => intro r h; simp [takeUntilRBrace] at h
  | cons c cs ih =>
    intro r h
    rw [takeUntilRBrace] at h
    split at h
    · cases h
      simp
    · rw [Option.map_eq_some'] at h
      obtain ⟨r', hr', hfr⟩ := h
      subst hfr
      have := ih hr'
      simp
      omega

theorem startMatch_after_lt :
    ∀ {l : List Char} {r}, startMatch l = some r → r.2.length < l.length := by
  intro l r h
  match l with
  | [] => simp [startMatch] at h
  | [c] => simp [startMatch] at h
  | c :: d :: rest =>
      rw [startMatch] at h
      split at h
      · split at h
        next e' a' hr =>
          split at h
          · simp at h
          · cases h
            have := takeUntilRBrace_after_lt hr
            simp at this ⊢
            omega
        next hr => simp at h
      · simp at h

theorem findExpr_after_lt :
    ∀ {l : List Char} {r}, findExpr l = some r → r.2.2.length < l.length := by
  intro l
  induction l with
  | nil => intro r h; simp [findExpr] at h
  | cons c cs ih =>
    intro r h
    rw [findExpr] at h
    split at h
    next e' a' hs =>
      cases h
      have := startMatch_after_lt hs
      simp at this ⊢
      omega
    next hs =>
      rw [Option.map_eq_some'] at h
      obtain ⟨r', hr', hfr⟩ := h
      subst hfr
      have := ih hr'
      simp
      omega

/-- The failure message of a path miss:
```Template resolution failed for ${root}.${path || ""}`.trim()``. -/
def resolutionFailMsg (root path : String) : String :=
  jsTrim ("Template resolution failed for " ++ root ++ "." ++ path)

def unknownRootMsg (root : String) : String :=
  "Unknown template root: " ++ root

/-- `const [root, ...rest] = s.split(".")`: the root component. -/
def splitRoot (s : String) : String :=
  (jsSplit (Char.ofNat 46) s).headD ""

/-- `rest.join(".")`: the path after the root component. -/
def splitPath (s : String) : String :=
  String.intercalate "." (jsSplit (Char.ofNat 46) s).tail

/-- The root switch shared by both resolvers, returning the traversed value
(`resolveWith` plus the `switch (root)` of the source). -/
def resolveRoot (root path : String) (context : TemplateContext) : Except String Json :=
  let resolveWith (source : Json) : Except String Json :=
    match getPathValue source path with
    | some v => .ok v
    | none => .error (resolutionFailMsg root path)
  match root with
  | "input" => resolveWith context.inputData
  | "steps" => resolveWith context.steps
  | "init" => resolveWith context.initData
  | "requestContext" => resolveWith context.requestContext
  | _ => .error (unknownRootMsg root)

/-- The root switch of `resolveTemplateString`, whose `resolveWith`
stringifies the traversed value (`String(resolved)`). -/
def resolveRootString (root path : String) (context : TemplateContext) :
    Except String String :=
  let resolveWith (source : Json) : Except String String :=
    match getPathValue source path with
    | some v => .ok (jsToString v)
    | none => .error (resolutionFailMsg root path)
  match root with
  | "input" => resolveWith context.inputData
  | "steps" => resolveWith context.steps
  | "init" => resolveWith context.initData
  | "requestContext" => resolveWith context.requestContext
  | _ => .error (unknownRootMsg root)

/-- The replacement callback of `resolveTemplateString`: trim the captured
expression, split off the root, traverse, and stringify the result. -/
def resolveExprToString (expr : String) (context : TemplateContext) :
    Except String String :=
  let trimmed := jsTrim expr
  resolveRootString (splitRoot trimmed) (splitPath trimmed) context

/-- The global replace of `resolveTemplateString` over the character list:
each match is resolved independently, left to right; replacement text is
not rescanned. -/
def replaceTemplates (chars : List Char) (context : TemplateContext) :
    Except String String :=
  match hf : findExpr chars with
  | none => .ok (String.mk chars)
  | some (before, exprChars, after) => do
      let rep ← resolveExprToString (String.mk exprChars) context
      let restRes ← replaceTemplates after context
      .ok (String.mk before ++ rep ++ restRes)
termination_by chars.length
decreasing_by
  exact findExpr_after_lt hf

/-- `resolveTemplateString`: resolve every `${root.path}` interpolation
inside a string, stringifying each resolved value. -/
def resolveTemplateString (value : String) (context : TemplateContext) :
    Except String String :=
  replaceTemplates value.data context

/-- `normalizePathExpression`: trim, then strip a leading `$.` or `$`. -/
def normalizePathExpression (expression : String) : String :=
  let trimmed := jsTrim expression
  match trimmed.data with
  | c :: d :: rest =>
      if c = dollarChar ∧ d = Char.ofNat 46 then String.mk rest
      else if c = dollarChar then String.mk (d :: rest)
      else trimmed
  | [c] => if c = dollarChar then "" else trimmed
  | [] => trimmed

/-- `resolvePathExpression`: resolve a structured path expression to the
referenced value, preserving its type. -/
def resolvePathExpression (expression : String) (context : TemplateContext) :
    Except String Json :=
  let normalized := normalizePathExpression expression
  resolveRoot (splitRoot normalized) (splitPath normalized) context

/-- `isPathExpression`: a mapping with exactly one key, `$path` or
`$jsonPath`. -/
def isPathExpression (fields : List (String × Json)) : Bool :=
  match fields with
  | [f] => f.1 = "$path" ∨ f.1 = "$jsonPath"
  | _ => false

def pathExprNotStringMsg : String := "Path expression must be a string."

mutual
  /-- `resolveTemplates`: recursively replace every embedded expression in
  a value by its resolved runtime value, preserving shape. -/
def resolveTemplates (value : Json) (context : TemplateContext) :
      Except String Json :=
    match value with
    | .str s => (resolveTemplateString s context).map Json.str
    | .arr xs => (resolveTemplatesList xs context).map Json.arr
    | .obj fields =>
        if isPathExpression fields then
          -- `record.$path ?? record.$jsonPath`, then the string check
          let e : Option Json :=
            match fields.lookup "$path" with
            | some Json.null => fields.lookup "$jsonPath"
            | some v => some v
            | none => fields.lookup "$jsonPath"
          match e with
          | some (.str s) => resolvePathExpression s context
          | _ => .error pathExprNotStringMsg
        else (resolveTemplatesFields fields context).map Json.obj
    | other => .ok other
  termination_by sizeOf value
def resolveTemplatesList (xs : List Json) (context : TemplateContext) :
      Except String (List Json) :=
    match xs with
    | [] => .ok []
    | x :: rest => do
        let v ← resolveTemplates x context
        let vs ← resolveTemplatesList rest context
        .ok (v :: vs)
  termination_by sizeOf xs
def resolveTemplatesFields (fields : List (String × Json)) (context : TemplateContext) :
      Except String (List (String × Json)) :=
    match fields with
    | [] => .ok []
    | (k, x) :: rest => do
        let v ← resolveTemplates x context
        let vs ← resolveTemplatesFields rest context
        .ok ((k, v) :: vs)
  termination_by sizeOf fields
end

/-! ### Graph compiler (compiler.ts) -/

/-- `convertSchemaToZod`, an external conversion; modelled as carrying the
JSON schema unchanged. -/
def toZod (schema : Json) : Json := schema

/-- `buildMapping`: translate mapping entries into the runtime's own
source-reference vocabulary. -/
def buildMapping (mappings : List (String × Json)) : List (String × MapTarget) :=
  mappings.map (fun kv =>
    let m := kv.2
    (kv.1,
      if m.hasField "value" then
        MapTarget.valueT ((m.getField "value").getD Json.null)
      else if optIsStr (m.getField "from") "requestContext" then
        MapTarget.requestContextT (m.getField "path")
      else if optIsStr (m.getField "from") "init" then
        MapTarget.initT (m.getField "path")
      else
        MapTarget.stepT (m.getField "stepId") (m.getField "path")))

/-- `isSchemaStep`: carries both an input and an output schema. -/
def isSchemaStep (s : StepSpec) : Bool :=
  (s.inputSchemaOf).isSome && (s.outputSchemaOf).isSome

/-- `deriveWorkflowSchemas`: the first schema-carrying step's input and the
last one's output, defaulting to `{}`. -/
def deriveWorkflowSchemas (steps : List StepSpec) : Json × Json :=
  let inputStep := steps.find? isSchemaStep
  let outputStep := steps.reverse.find? isSchemaStep
  ((inputStep.bind StepSpec.inputSchemaOf).getD (Json.obj []),
   (outputStep.bind StepSpec.outputSchemaOf).getD (Json.obj []))

/-- `spec.params` of a leaf step (variants without the field read as
`undefined`). -/
def StepSpec.paramsOf : StepSpec → Option Json
  | .step _ _ _ _ p .. => p
  | .agent _ _ _ _ p _ => p
  | .tool _ _ _ _ p _ => p
  | .handlerStep _ _ _ _ _ p _ => p
  | _ => none

/-- `"retries" in spec ? spec.retries : undefined`. -/
def StepSpec.retriesOf : StepSpec → Option Int
  | .step _ _ _ _ _ r _ => r
  | _ => none

/-- `"description" in spec ? spec.description : undefined`. -/
def StepSpec.descriptionOf : StepSpec → Option String
  | .step _ _ _ _ _ _ d => d
  | .agent _ _ _ _ _ d => d
  | .tool _ _ _ _ _ d => d
  | .mcp _ _ _ _ _ d => d
  | .network _ _ _ _ d => d
  | .evals _ _ _ _ d => d
  | .handlerStep _ _ _ _ _ _ d => d
  | .typedStep _ _ _ _ d => d
  | _ => none

def controlStepMsg (typeName : String) : String :=
  "buildStep cannot handle control step type: " ++ typeName

def unknownStepTypeMsg (typeName : String) : String :=
  "Unknown step type: " ++ typeName

def missingNestedWorkflowMsg (workflowId : String) : String :=
  "Missing nested workflow: " ++ workflowId

def unsupportedStepTypeMsg (typeName : String) : String :=
  "Unsupported step type: " ++ typeName

/-- The handler id derived from a leaf step's declarative fields, exactly
as `buildStep` computes it (`none` when `buildStep` throws instead). -/
def leafHandlerId : StepSpec → Option String
  | .agent _ _ _ a .. => some ("agent." ++ a)
  | .step _ _ _ a .. => some ("handlers." ++ a)
  | .tool _ _ _ t .. => some ("tool." ++ t)
  | .handlerStep ns _ _ _ h _ _ => some (ns.typeName ++ "." ++ h)
  | .mcp _ _ _ server t _ => some ("mcp." ++ server ++ "." ++ t)
  | .network _ _ _ n _ => some ("network." ++ n)
  | .typedStep ns i _ _ _ => some (ns.typeName ++ "." ++ i)
  | .evals _ _ _ s _ => some ("evals." ++ s)
  | _ => none

/-- `buildStep`: build the schedulable unit of one leaf step, resolving its
handler at compile time; control constructs are rejected. -/
def buildStep (spec : StepSpec) (registry : HandlerRegistry) : Except String BuiltStep :=
  match spec with
  | .sleep .. => .error (controlStepMsg "sleep")
  | .sleepUntil .. => .error (controlStepMsg "sleepUntil")
  | .map .. => .error (controlStepMsg "map")
  | .humanInput .. => .error (controlStepMsg "humanInput")
  | .bail .. => .error (controlStepMsg "bail")
  | .workflow wid _ =>
      match registry.workflows.lookup wid with
      | some g => .ok (.graphStep g)
      | none => .error (missingNestedWorkflowMsg wid)
  | .suspend .. => .error (controlStepMsg "suspend")
  | .resume .. => .error (controlStepMsg "resume")
  | .branch _ => .error (unknownStepTypeMsg "branch")
  | .parallel _ => .error (unknownStepTypeMsg "parallel")
  | .foreach .. => .error (unknownStepTypeMsg "foreach")
  | .dowhile .. => .error (unknownStepTypeMsg "dowhile")
  | .dountil .. => .error (unknownStepTypeMsg "dountil")
  | .step i inS outS action params retries desc =>
      -- `if (!spec.action) throw` (the empty string is falsy)
      if action = "" then .error "Missing handler/agent/action/tool for step"
      else do
        let _ ← resolveHandler registry ("handlers." ++ action)
        .ok (.leaf i desc (toZod inS) (toZod outS) retries ("handlers." ++ action) params)
  | .agent i inS outS a params desc => do
      let _ ← resolveHandler registry ("agent." ++ a)
      .ok (.leaf i desc (toZod inS) (toZod outS) none ("agent." ++ a) params)
  | .tool i inS outS t params desc => do
      let _ ← resolveHandler registry ("tool." ++ t)
      .ok (.leaf i desc (toZod inS) (toZod outS) none ("tool." ++ t) params)
  | .handlerStep ns i inS outS h params desc => do
      let hid := ns.typeName ++ "." ++ h
      let _ ← resolveHandler registry hid
      .ok (.leaf i desc (toZod inS) (toZod outS) none hid params)
  | .mcp i inS outS server t desc => do
      let hid := "mcp." ++ server ++ "." ++ t
      let _ ← resolveHandler registry hid
      .ok (.leaf i desc (toZod inS) (toZod outS) none hid none)
  | .network i inS outS n desc => do
      let hid := "network." ++ n
      let _ ← resolveHandler registry hid
      .ok (.leaf i desc (toZod inS) (toZod outS) none hid none)
  | .typedStep ns i inS outS desc => do
      let hid := ns.typeName ++ "." ++ i
      let _ ← resolveHandler registry hid
      .ok (.leaf i desc (toZod inS) (toZod outS) none hid none)
  | .evals i inS outS s desc => do
      let hid := "evals." ++ s
      let _ ← resolveHandler registry hid
      .ok (.leaf i desc (toZod inS) (toZod outS) none hid none)

mutual
  /-- `applySteps`: fold the step sequence into the runtime's composition
  primitives, propagating the first compile failure. -/
def applySteps (workflow : Graph) (steps : List StepSpec) (registry : HandlerRegistry) :
      Except String Graph :=
    match steps with
    | [] => .ok workflow
    | step :: rest =>
      match step with
      | .workflow wid inputMapping =>
          (match registry.workflows.lookup wid with
           | none => .error (missingNestedWorkflowMsg wid)
           | some nested =>
              let nestedClone := nested.withId (workflow.id ++ "." ++ nested.id)
              let nestedStep : BuiltStep :=
                match inputMapping with
                | some m =>
                    let mappingWorkflow := Graph.mk
                      (workflow.id ++ "." ++ nested.id ++ ".mapping")
                      workflow.inputSchema workflow.inputSchema none none none []
                    .graphStep
                      ((mappingWorkflow.push (.mapNode (buildMapping m) none)).push
                        (.thenStep (.graphStep nestedClone)))
                | none => .graphStep nestedClone
              applySteps (workflow.push (.thenStep nestedStep)) rest registry)
      | .map mappings mid =>
          applySteps (workflow.push (.mapNode (buildMapping mappings) mid)) rest registry
      | .sleep ms _ =>
          applySteps (workflow.push (.sleepNode ms)) rest registry
      | .sleepUntil date _ =>
          applySteps (workflow.push (.sleepUntilNode date)) rest registry
      | .humanInput prompt hid =>
          applySteps (workflow.push (.thenStep (.humanInputStep hid prompt))) rest registry
      | .bail whenCond payload bid =>
          applySteps (workflow.push (.thenStep (.bailStep bid whenCond payload))) rest registry
      | .suspend sid prompt =>
          applySteps (workflow.push (.thenStep (.suspendStep sid prompt))) rest registry
      | .resume rid data =>
          applySteps (workflow.push (.thenStep (.resumeStep rid data))) rest registry
      | .parallel members => do
          let built ← members.mapM (fun s => buildStep s registry)
          applySteps (workflow.push (.parallelNode built)) rest registry
      | .branch arms => do
          let builtArms ← buildBranchArms workflow.id arms registry 0
          applySteps (workflow.push (.branchNode builtArms)) rest registry
      | .foreach conc body => do
          let built ← buildStep body registry
          applySteps (workflow.push (.foreachNode built (conc.getD 1))) rest registry
      | .dowhile body cond => do
          let built ← buildStep body registry
          let _ ← resolveHandler registry cond.handler
          applySteps (workflow.push (.dowhileNode built cond)) rest registry
      | .dountil body cond => do
          let built ← buildStep body registry
          let _ ← resolveHandler registry cond.handler
          applySteps (workflow.push (.dountilNode built cond)) rest registry
      | .mcp .. =>
          -- the leaf-dispatch list of applySteps omits mcp, so a top-level
          -- mcp step falls through to the trailing unsupported-type throw
          .error (unsupportedStepTypeMsg "mcp")
      | leaf => do
          let built ← buildStep leaf registry
          applySteps (workflow.push (.thenStep built)) rest registry
  termination_by sizeOf steps
  /-- Branch arms: resolve each condition handler, then build the arm's
  own workflow (`buildBranchWorkflow`) with derived schemas. -/
def buildBranchArms (parentId : String) (arms : List (CondSpec × List StepSpec))
      (registry : HandlerRegistry) (index : Nat) :
      Except String (List (CondSpec × BuiltStep)) :=
    match arms with
    | [] => .ok []
    | (cond, armSteps) :: rest => do
        let _ ← resolveHandler registry cond.handler
        let schemas := deriveWorkflowSchemas armSteps
        let armWf := Graph.mk (parentId ++ ".branch." ++ toString index)
          (toZod schemas.1) (toZod schemas.2) none none none []
        let builtArm ← applySteps armWf armSteps registry
        let restArms ← buildBranchArms parentId rest registry (index + 1)
        .ok ((cond, .graphStep builtArm) :: restArms)
  termination_by sizeOf arms
end

def schemaValidationFailedMsg (errors : List SchemaIssue) : String :=
  "Schema validation failed:\n" ++
    String.intercalate "\n" (errors.map (fun issue => issue.path ++ ": " ++ issue.message))

/-- `compileWorkflow`: validate, abort on error-severity issues with the
newline-joined message, otherwise build the graph and return it together
with the warning-severity issues. -/
def compileWorkflow (spec : WorkflowSpec) (registry : HandlerRegistry) :
    Except String (Graph × List SchemaIssue) :=
  let issues := validateWorkflowSchemas spec (some registry)
  let errors := issues.filter (fun issue => issue.severity = Severity.error)
  if errors.length > 0 then
    .error (schemaValidationFailedMsg errors)
  else do
    let workflow := Graph.mk spec.id (toZod spec.inputSchema) (toZod spec.outputSchema)
      (spec.stateSchema.map toZod) (spec.requestContextSchema.map toZod) spec.options []
    let built ← applySteps workflow spec.steps registry
    .ok (built, issues.filter (fun issue => issue.severity = Severity.warning))

/-! ### Compiled bail-step semantics (compiler.ts lines 364-414) -/

/-- What a compiled bail step's execute does: request early termination
with a payload, or return the not-bailed marker value. -/
inductive BailOutcome where
  /-- `return bail(resolvedPayload)`. -/
  | bailed (payload : Json)
  /-- An ordinary return value (no termination requested). -/
  | notBailed (result : Json)
deriving Inhabited

/-- The not-bailed marker `{ bailed: false, payload: null }`. -/
def notBailedMarker : Json :=
  Json.obj [("bailed", .bool false), ("payload", Json.null)]

/-- The execute closure of a compiled bail step: `shouldBail` starts true;
a truthy `when` expression is resolved as a template (against the input
data only; steps/init/requestContext are empty) and JS truthiness of the
resolved value decides; bailing resolves the payload the same way. -/
def bailExecute (whenCond : Option String) (payload : Json) (inputData : Json) :
    Except String BailOutcome := do
  let context : TemplateContext := ⟨inputData, Json.obj [], Json.obj [], Json.obj []⟩
  let shouldBail ←
    match whenCond with
    | some w =>
        if w ≠ "" then do
          let conditionResult ← resolveTemplates (Json.obj [("condition", .str w)]) context
          pure (((conditionResult.getField "condition").getD Json.null).truthy)
        else pure true
    | none => pure true
  if shouldBail then do
    let resolvedPayload ← resolveTemplates payload context
    pure (BailOutcome.bailed resolvedPayload)
  else
    pure (BailOutcome.notBailed notBailedMarker)

/-! ## Helper lemmas -/

theorem string_ne_of_head {s t : String} (h : s.data.head? ≠ t.data.head?) : s ≠ t :=
  fun he => h (he ▸ rfl)

theorem except_bind_ok {ε α β : Type} (x : α) (f : α → Except ε β) :
    (Except.ok x : Except ε α) >>= f = f x := rfl

theorem except_pure_bind {ε α β : Type} (x : α) (f : α → Except ε β) :
    (pure x : Except ε α) >>= f = f x := rfl

theorem string_ne_of_getElem {s t : String} (n : Nat) (h : s.data[n]? ≠ t.data[n]?) :
    s ≠ t :=
  fun he => h (he ▸ rfl)

/-- The non-mismatch block structure of `validateSchemaCompatibility` on
two present schemas that pass the type check. -/
theorem compat_eq_blocks (o' i' : Json) (path : String) (mode : Mode)
    (ht : typeIncludes (getSchemaType o') (getSchemaType i') = true) :
    validateSchemaCompatibility (some o') (some i') path mode =
      (if isNullable i' && ¬ isNullable o' then
          [⟨nullableMsg, path, Severity.warning⟩] else [])
      ++ (if ¬ isEnumCompatible o' i' then
          [⟨enumMsg, path, mode.issueSeverity⟩] else [])
      ++ (if ¬ (scalarConstraintKeys i').isEmpty ∧ (scalarConstraintKeys o').isEmpty then
          [⟨constraintsMsg, path, Severity.warning⟩] else [])
      ++ (if getSchemaType i' = some (.single "object") ∧ getSchemaType o' = some (.single "object") then
          (getRequired i').filterMap (fun key =>
            if jsHasProp ((getObjectProps o').getD (Json.obj [])) key then none
            else some ⟨missingKeyMsg key, path, Severity.warning⟩)
          else [])
      ++ (if getSchemaType i' = some (.single "array") ∧ getSchemaType o' = some (.single "array") then
          compatItems o' i' path mode
          else []) := by
  rw [validateSchemaCompatibility]
  simp only [normalizeSchema, ht, not_true_eq_false, if_false]

/-- The mismatch case of `validateSchemaCompatibility`. -/
theorem compat_eq_mismatch (o' i' : Json) (path : String) (mode : Mode)
    (ht : typeIncludes (getSchemaType o') (getSchemaType i') = false) :
    validateSchemaCompatibility (some o') (some i') path mode =
      [⟨typeMismatchMsg (getSchemaType o') (getSchemaType i'), path, mode.issueSeverity⟩] := by
  rw [validateSchemaCompatibility]
  simp only [normalizeSchema, ht, not_false_eq_true, if_true]
  rfl

theorem compat_path_le_aux : ∀ (n : Nat) (o i : Option Json) (p : String) (mode : Mode),
    sizeOf o ≤ n → ∀ issue ∈ validateSchemaCompatibility o i p mode,
      p.length ≤ issue.path.length := by
  intro n
  induction n with
  | zero =>
    intro o i p mode hn
    exfalso
    cases o <;> simp at hn
  | succ n ih =>
    intro o i p mode hn issue h
    match o, i with
    | none, i => simp [validateSchemaCompatibility] at h
    | some o', none => simp [validateSchemaCompatibility] at h
    | some o', some i' =>
      rw [validateSchemaCompatibility] at h
      simp only [normalizeSchema] at h
      split at h
      · simp at h
        rw [h]
      · simp only [List.mem_append] at h
        rcases h with ((((h | h) | h) | h) | h)
        · split at h
          · simp at h; rw [h]
          · simp at h
        · split at h
          · simp at h; rw [h]
          · simp at h
        · split at h
          · simp at h; rw [h]
          · simp at h
        · split at h
          · simp only [List.mem_filterMap] at h
            obtain ⟨k, _, hk⟩ := h
            split at hk
            · simp at hk
            · simp at hk; rw [← hk]
          · simp at h
        · split at h
          · rw [compatItems] at h
            split at h
            next outputItems inputItems ho hi =>
              have hsz := sizeOf_getArrayItems ho
              have hle : sizeOf (some outputItems : Option Json) ≤ n := by
                simp at hn ⊢
                omega
              have := ih (some outputItems) (some inputItems) (p ++ ".items") mode hle issue h
              rw [String.length_append] at this
              omega
            next => simp at h
          · simp at h

/-- Every issue of `validateSchemaCompatibility` sits at the call's path or
strictly deeper (array-item recursion extends the path). -/
theorem compat_path_le (o i : Option Json) (p : String) (mode : Mode) :
    ∀ issue ∈ validateSchemaCompatibility o i p mode, p.length ≤ issue.path.length :=
  compat_path_le_aux (sizeOf o) o i p mode le_rfl

/-- Issues of the array-item recursion sit strictly below the pair's path. -/
theorem compatItems_path_lt (no ni : Json) (p : String) (mode : Mode) :
    ∀ issue ∈ compatItems no ni p mode, p.length < issue.path.length := by
  intro issue h
  rw [compatItems] at h
  split at h
  next outputItems inputItems ho hi =>
    have h1 := compat_path_le (some outputItems) (some inputItems) (p ++ ".items") mode issue h
    rw [String.length_append] at h1
    have h6 : (".items" : String).length = 6 := rfl
    omega
  next => simp at h

theorem typeMismatchMsg_head (x y : Option SchemaType) :
    (typeMismatchMsg x y).data.head? = some (Char.ofNat 83) := rfl

theorem missingKeyMsg_head (k : String) :
    (missingKeyMsg k).data.head? = some (Char.ofNat 79) := rfl

theorem typeMismatchMsg_ne_nullable (x y : Option SchemaType) :
    typeMismatchMsg x y ≠ nullableMsg :=
  string_ne_of_head (by rw [typeMismatchMsg_head]; simp [nullableMsg])

theorem typeMismatchMsg_ne_enum (x y : Option SchemaType) :
    typeMismatchMsg x y ≠ enumMsg :=
  string_ne_of_head (by rw [typeMismatchMsg_head]; simp [enumMsg])

theorem typeMismatchMsg_ne_constraints (x y : Option SchemaType) :
    typeMismatchMsg x y ≠ constraintsMsg :=
  string_ne_of_head (by rw [typeMismatchMsg_head]; simp [constraintsMsg])

theorem typeMismatchMsg_ne_missingKey (x y : Option SchemaType) (k : String) :
    typeMismatchMsg x y ≠ missingKeyMsg k :=
  string_ne_of_head (by rw [typeMismatchMsg_head, missingKeyMsg_head]; simp)

/-! ## C6 -/

/-- C6: when producer and consumer both declare primitive type(s) and some
consumer type is missing from the producer's set, the validator emits for
that pair exactly the one type-mismatch issue — error in strict mode,
warning in warn mode — and nothing else (short-circuit); when every
consumer type appears, no type-mismatch issue is emitted for that pair. -/
theorem typeMismatch_one_issue_and_short_circuit (o i : Json) (path : String) (mode : Mode)
    (ot it : SchemaType) (ho : getSchemaType o = some ot) (hi : getSchemaType i = some it) :
    (typeIncludes (some ot) (some it) = false →
        validateSchemaCompatibility (some o) (some i) path mode
          = [⟨typeMismatchMsg (some ot) (some it), path, mode.issueSeverity⟩])
    ∧ (typeIncludes (some ot) (some it) = true →
        ∀ issue ∈ validateSchemaCompatibility (some o) (some i) path mode,
          ¬ (issue.path = path ∧ issue.message = typeMismatchMsg (some ot) (some it)))
    ∧ Mode.strict.issueSeverity = Severity.error
    ∧ Mode.warn.issueSeverity = Severity.warning := by
  refine ⟨?_, ?_, rfl, rfl⟩
  · intro ht
    have := compat_eq_mismatch o i path mode (by rw [ho, hi, ht])
    rw [ho, hi] at this
    exact this
  · intro ht issue h hcontra
    rw [compat_eq_blocks o i path mode (by rw [ho, hi, ht])] at h
    simp only [List.mem_append] at h
    rcases h with ((((h | h) | h) | h) | h)
    · split at h
      · simp at h
        exact typeMismatchMsg_ne_nullable _ _ ((h ▸ hcontra.2 :)).symm
      · simp at h
    · split at h
      · simp at h
        exact typeMismatchMsg_ne_enum _ _ ((h ▸ hcontra.2 :)).symm
      · simp at h
    · split at h
      · simp at h
        exact typeMismatchMsg_ne_constraints _ _ ((h ▸ hcontra.2 :)).symm
      · simp at h
    · split at h
      · simp only [List.mem_filterMap] at h
        obtain ⟨k, _, hk⟩ := h
        split at hk
        · simp at hk
        · simp at hk
          exact typeMismatchMsg_ne_missingKey _ _ k ((hk ▸ hcontra.2 :)).symm
      · simp at h
    · split at h
      · have := compatItems_path_lt o i path mode issue h
        rw [hcontra.1] at this
        omega
      · simp at h

/-- C6 witness: a string-typed producer against a number-typed consumer
under strict mode yields exactly the one error-severity mismatch issue. -/
theorem typeMismatch_one_issue_and_short_circuit_witness :
    validateSchemaCompatibility (some (Json.obj [("type", Json.str "string")]))
        (some (Json.obj [("type", Json.str "number")])) "p" .strict
      = [⟨typeMismatchMsg (some (.single "string")) (some (.single "number")), "p",
          Severity.error⟩] :=
  (typeMismatch_one_issue_and_short_circuit
    (Json.obj [("type", Json.str "string")]) (Json.obj [("type", Json.str "number")])
    "p" .strict (.single "string") (.single "number") rfl rfl).1 rfl

/-! ## C9 -/

theorem missingKeyMsg_inj {k j : String} (h : missingKeyMsg k = missingKeyMsg j) : k = j := by
  simp only [missingKeyMsg] at h
  have hd := congrArg String.data h
  simp only [String.data_append] at hd
  have h2 := List.append_cancel_right hd
  have h3 := List.append_cancel_right h2
  have h4 := List.append_cancel_left h3
  exact String.ext h4

theorem nullableMsg_ne_missingKey (k : String) : nullableMsg ≠ missingKeyMsg k :=
  string_ne_of_head (by rw [missingKeyMsg_head]; simp [nullableMsg])

theorem constraintsMsg_ne_missingKey (k : String) : constraintsMsg ≠ missingKeyMsg k :=
  string_ne_of_head (by rw [missingKeyMsg_head]; simp [constraintsMsg])

theorem enumMsg_ne_missingKey (k : String) : enumMsg ≠ missingKeyMsg k := by
  intro h
  have hl := congrArg String.length h
  simp only [missingKeyMsg, String.length_append] at hl
  have h1 : (enumMsg : String).length = 61 := rfl
  have h2 : ("Output schema missing required key " : String).length = 35 := rfl
  have h3 : (sq : String).length = 1 := rfl
  have h4 : (" expected by next step input." : String).length = 29 := rfl
  omega

/-- Count of missing-required-key warnings for one key in the object rule's
`filterMap`: one when the key is required and missing from the producer's
properties, zero otherwise (required keys assumed listed once). -/
theorem required_filter_count (req : List String) (props : Json) (path : String)
    (key : String) (hnd : req.Nodup) :
    ((req.filterMap (fun k => if jsHasProp props k then none
        else some (⟨missingKeyMsg k, path, Severity.warning⟩ : SchemaIssue))).filter
      (fun x => x.message = missingKeyMsg key)).length
    = if key ∈ req ∧ ¬ jsHasProp props key then 1 else 0 := by
  induction req with
  | nil => simp
  | cons a req ih =>
    have hnd' : req.Nodup := (List.nodup_cons.mp hnd).2
    have hna : a ∉ req := (List.nodup_cons.mp hnd).1
    rw [List.filterMap_cons]
    by_cases ha : jsHasProp props a
    · simp only [ha, if_true]
      rw [ih hnd']
      by_cases hk : key = a
      · subst hk
        simp [ha, fun hm : key ∈ req => hna hm]
      · simp [hk]
    · simp only [ha, if_false, Bool.false_eq_true]
      by_cases hk : key = a
      · subst hk
        have hrest : ¬ (key ∈ req ∧ ¬ jsHasProp props key) := fun hc => hna hc.1
        rw [List.filter_cons_of_pos (by simp)]
        simp only [List.length_cons]
        rw [ih hnd', if_neg hrest]
        simp [ha]
      · have hne : ¬ ((⟨missingKeyMsg a, path, Severity.warning⟩ : SchemaIssue).message
            = missingKeyMsg key) := fun hh => hk (missingKeyMsg_inj hh).symm
        rw [List.filter_cons_of_neg (by simpa using hne), ih hnd']
        simp [hk]

/-- C9: for object-typed producer/consumer pairs, each consumer-required
key absent from the producer's declared properties yields exactly one
warning-severity issue (one per missing key), and never an error, in both
modes. -/
theorem requiredKey_missing_warnings (o i : Json) (path : String) (mode : Mode) (key : String)
    (ho : getSchemaType o = some (.single "object"))
    (hi : getSchemaType i = some (.single "object"))
    (hnd : (getRequired i).Nodup) :
    (((validateSchemaCompatibility (some o) (some i) path mode).filter
        (fun x => x.message = missingKeyMsg key)).length
      = if key ∈ getRequired i ∧ ¬ jsHasProp ((getObjectProps o).getD (Json.obj [])) key
        then 1 else 0)
    ∧ ∀ x ∈ validateSchemaCompatibility (some o) (some i) path mode,
        x.message = missingKeyMsg key → x.severity = Severity.warning := by
  have ht : typeIncludes (getSchemaType o) (getSchemaType i) = true := by
    rw [ho, hi]; rfl
  have hobj : getSchemaType i = some (.single "object") ∧ getSchemaType o = some (.single "object") :=
    ⟨hi, ho⟩
  have harr : ¬ (getSchemaType i = some (.single "array") ∧ getSchemaType o = some (.single "array")) := by
    rw [ho, hi]; simp
  rw [compat_eq_blocks o i path mode ht]
  rw [if_pos hobj, if_neg harr]
  constructor
  · simp only [List.filter_append, List.length_append, List.append_nil]
    have e2 : (if isNullable i && ¬ isNullable o then
          [(⟨nullableMsg, path, Severity.warning⟩ : SchemaIssue)] else []).filter
        (fun x => x.message = missingKeyMsg key) = [] := by
      split
      · simp [nullableMsg_ne_missingKey key]
      · rfl
    have e3 : (if ¬ isEnumCompatible o i then
          [(⟨enumMsg, path, mode.issueSeverity⟩ : SchemaIssue)] else []).filter
        (fun x => x.message = missingKeyMsg key) = [] := by
      split
      · simp [enumMsg_ne_missingKey key]
      · rfl
    have e4 : (if ¬ (scalarConstraintKeys i).isEmpty ∧ (scalarConstraintKeys o).isEmpty then
          [(⟨constraintsMsg, path, Severity.warning⟩ : SchemaIssue)] else []).filter
        (fun x => x.message = missingKeyMsg key) = [] := by
      split
      · simp [constraintsMsg_ne_missingKey key]
      · rfl
    rw [e2, e3, e4]
    simp only [List.length_nil, Nat.zero_add, Nat.add_zero]
    rw [required_filter_count (getRequired i) _ path key hnd]
  · intro x hx hmsg
    simp only [List.mem_append, List.append_nil] at hx
    rcases hx with (((hx | hx) | hx) | hx)
    · split at hx
      · simp at hx
        rw [hx]
      · simp at hx
    · split at hx
      · simp at hx
        rw [hx] at hmsg
        exact absurd hmsg (enumMsg_ne_missingKey key)
      · simp at hx
    · split at hx
      · simp at hx
        rw [hx]
      · simp at hx
    · simp only [List.mem_filterMap] at hx
      obtain ⟨k, _, hk⟩ := hx
      split at hk
      · simp at hk
      · simp at hk
        rw [← hk]

/-- C9 witness: a producer `{type: object, properties: {result: {}}}`
against a consumer requiring `value` yields exactly one missing-key
warning. -/
theorem requiredKey_missing_warnings_witness :
    ((validateSchemaCompatibility
        (some (Json.obj [("type", Json.str "object"),
          ("properties", Json.obj [("result", Json.obj [])])]))
        (some (Json.obj [("type", Json.str "object"),
          ("required", Json.arr [Json.str "value"])])) "p" .warn).filter
      (fun x => x.message = missingKeyMsg "value")).length = 1 := by
  have h := (requiredKey_missing_warnings
    (Json.obj [("type", Json.str "object"),
      ("properties", Json.obj [("result", Json.obj [])])])
    (Json.obj [("type", Json.str "object"),
      ("required", Json.arr [Json.str "value"])])
    "p" .warn "value" rfl rfl (by decide)).1
  rw [h]
  rfl

/-! ## C8 -/

theorem compat_none_input (o : Option Json) (p : String) (mode : Mode) :
    validateSchemaCompatibility o none p mode = [] := by
  cases o <;> simp [validateSchemaCompatibility]

/-- C8: a foreach step whose carried-forward shape is declared and not an
array-typed schema yields exactly one foreach-after-non-array issue for
that step (error under strict, warning under warn); an array-typed or
undeclared carried shape yields none. -/
theorem foreach_after_nonarray (conc : Option Int) (body : StepSpec) (rest : List StepSpec)
    (idx : Nat) (path : String) (mode : Mode) (avail : List String) :
    (∀ s : Json, isArraySchema s = false →
        validateSequenceAux (.foreach conc body :: rest) idx path mode (some s) avail
          = ⟨foreachMsg, path ++ ".steps." ++ toString idx, mode.issueSeverity⟩
              :: validateSequenceAux rest (idx + 1) path mode
                  (computeForeachOutput (.foreach conc body)) avail)
    ∧ (∀ s : Json, isArraySchema s = true →
        validateSequenceAux (.foreach conc body :: rest) idx path mode (some s) avail
          = validateSequenceAux rest (idx + 1) path mode
              (computeForeachOutput (.foreach conc body)) avail)
    ∧ (validateSequenceAux (.foreach conc body :: rest) idx path mode none avail
          = validateSequenceAux rest (idx + 1) path mode
              (computeForeachOutput (.foreach conc body)) avail)
    ∧ Mode.strict.issueSeverity = Severity.error
    ∧ Mode.warn.issueSeverity = Severity.warning := by
  refine ⟨?_, ?_, ?_, rfl, rfl⟩
  · intro s hs
    rw [validateSequenceAux]
    simp [StepSpec.inputSchemaOf, compat_none_input, hs]
  · intro s hs
    rw [validateSequenceAux]
    simp [StepSpec.inputSchemaOf, compat_none_input, hs]
  · rw [validateSequenceAux]
    simp [StepSpec.inputSchemaOf, compat_none_input]

/-- C8 witness: a foreach after a declared `{type: object}` shape under
strict mode yields exactly the one error. -/
theorem foreach_after_nonarray_witness :
    validateSequenceAux
        [.foreach none (.step "b" (Json.obj []) (Json.obj []) "a" none none none)]
        0 "wf" .strict (some (Json.obj [("type", Json.str "object")])) []
      = [⟨foreachMsg, "wf.steps.0", Severity.error⟩] := by
  have h := (foreach_after_nonarray none
    (.step "b" (Json.obj []) (Json.obj []) "a" none none none) [] 0 "wf" .strict []).1
    (Json.obj [("type", Json.str "object")]) (by rfl)
  rw [h]
  rw [validateSequenceAux]
  rfl

/-! ## C10 -/

/-- C10: the compiler forwards a declared foreach concurrency bound
unchanged to the runtime's foreach primitive, and passes exactly 1 when the
bound is absent. -/
theorem foreach_concurrency_forwarded (g : Graph) (body : StepSpec)
    (rest : List StepSpec) (r : HandlerRegistry) (bs : BuiltStep)
    (hb : buildStep body r = .ok bs) :
    (applySteps g (.foreach none body :: rest) r
        = applySteps (g.push (.foreachNode bs 1)) rest r)
    ∧ ∀ n : Int, applySteps g (.foreach (some n) body :: rest) r
        = applySteps (g.push (.foreachNode bs n)) rest r := by
  constructor
  · rw [applySteps]
    simp only [hb]
    rfl
  · intro n
    rw [applySteps]
    simp only [hb]
    rfl

/-- C10 witness at a concrete graph, body and registry. -/
theorem foreach_concurrency_forwarded_witness :
    applySteps (Graph.mk "w" (Json.obj []) (Json.obj []) none none none [])
        [.foreach (some 3) (.step "b" (Json.obj []) (Json.obj []) "a" none none none)]
        { handlers := ["a"] }
      = applySteps ((Graph.mk "w" (Json.obj []) (Json.obj []) none none none []).push
          (.foreachNode (.leaf "b" none (Json.obj []) (Json.obj []) none "handlers.a" none) 3))
        [] { handlers := ["a"] } :=
  (foreach_concurrency_forwarded
    (Graph.mk "w" (Json.obj []) (Json.obj []) none none none [])
    (.step "b" (Json.obj []) (Json.obj []) "a" none none none)
    [] { handlers := ["a"] }
    (.leaf "b" none (Json.obj []) (Json.obj []) none "handlers.a" none)
    (by rfl)).2 3

/-! ## C2 -/

/-- The bail condition `{condition: w}` resolves field-wise through the
template resolver. -/
theorem resolveTemplates_condObj (w : String) (context : TemplateContext) (s : String)
    (h : resolveTemplateString w context = .ok s) :
    resolveTemplates (Json.obj [("condition", Json.str w)]) context
      = .ok (Json.obj [("condition", Json.str s)]) := by
  rw [resolveTemplates]
  simp [isPathExpression]
  rw [resolveTemplatesFields]
  rw [resolveTemplates]
  rw [resolveTemplatesFields]
  simp [h]
  rfl

/-- C2 (amended): a compiled bail step bails unconditionally when its
condition expression is absent or the empty string; a non-empty condition
is resolved as a template string and the step bails exactly when the
resolved string is non-empty (JS truthiness), returning the not-bailed
marker `{bailed: false, payload: null}` only for an empty resolved string;
bailing carries the template-resolved payload. -/
theorem bail_step_semantics :
    (∀ payload input, bailExecute none payload input
        = (resolveTemplates payload ⟨input, Json.obj [], Json.obj [], Json.obj []⟩).map .bailed)
    ∧ (∀ payload input, bailExecute (some "") payload input
        = (resolveTemplates payload ⟨input, Json.obj [], Json.obj [], Json.obj []⟩).map .bailed)
    ∧ (∀ w payload input s,
        resolveTemplateString w ⟨input, Json.obj [], Json.obj [], Json.obj []⟩ = .ok s →
        w ≠ "" → s ≠ "" →
        bailExecute (some w) payload input
          = (resolveTemplates payload ⟨input, Json.obj [], Json.obj [], Json.obj []⟩).map .bailed)
    ∧ (∀ w payload input,
        resolveTemplateString w ⟨input, Json.obj [], Json.obj [], Json.obj []⟩ = .ok "" →
        w ≠ "" →
        bailExecute (some w) payload input = .ok (.notBailed notBailedMarker)) := by
  refine ⟨?_, ?_, ?_, ?_⟩
  · intro payload input
    rw [bailExecute]
    rfl
  · intro payload input
    rw [bailExecute]
    rfl
  · intro w payload input s hres hw hs
    rw [bailExecute]
    rw [if_pos hw]
    rw [resolveTemplates_condObj w _ s hres]
    rw [except_bind_ok, except_pure_bind]
    rw [show (((Json.obj [("condition", Json.str s)]).getField "condition").getD
        Json.null).truthy = true by simp [Json.getField, Json.truthy, List.lookup, hs]]
    rfl
  · intro w payload input hres hw
    rw [bailExecute]
    rw [if_pos hw]
    rw [resolveTemplates_condObj w _ "" hres]
    rw [except_bind_ok, except_pure_bind]
    rw [show (((Json.obj [("condition", Json.str "")]).getField "condition").getD
        Json.null).truthy = false by decide]
    rfl

/-- C2 counterexample: with the condition absent the compiled bail step
bails (the claim says it is a no-op), and a condition resolving to the
boolean false stringifies to the truthy text `false` and also bails. -/
theorem bail_claim_counterexample :
    bailExecute none (Json.obj []) (Json.obj []) = .ok (.bailed (Json.obj []))
    ∧ bailExecute (some "${input.flag}") (Json.obj [])
        (Json.obj [("flag", Json.bool false)]) = .ok (.bailed (Json.obj [])) := by
  constructor
  · simp [bailExecute, resolveTemplates, resolveTemplatesFields, Json.truthy, Json.getField,
      isPathExpression] <;> try rfl
  · simp [bailExecute, resolveTemplates, resolveTemplatesFields, Json.truthy, Json.getField,
      isPathExpression, resolveTemplateString, replaceTemplates, findExpr, startMatch,
      takeUntilRBrace, resolveExprToString, jsTrim, jsSplit, jsSplitAux, getPathValue, walkPath,
      Json.jsGet, jsToString, dollarChar, lbraceChar, rbraceChar] <;> try rfl

/-! ## C4 -/

/-- The four recognized context roots
(the `switch (root)` of the resolvers, read as a lookup). -/
def contextRoot (root : String) (context : TemplateContext) : Option Json :=
  match root with
  | "input" => some context.inputData
  | "steps" => some context.steps
  | "init" => some context.initData
  | "requestContext" => some context.requestContext
  | _ => none

/-- C4 counterexample: the claim says traversal reaching a non-mapping
value always fails, but traversal into a sequence with a numeric index
succeeds — `input.a.0` against `{a: [5]}` resolves to `5`, both for the
bare path expression and for the structured `$path` form. -/
theorem template_resolution_counterexample :
    resolvePathExpression "input.a.0"
        ⟨Json.obj [("a", Json.arr [Json.num 5])], Json.obj [], Json.obj [], Json.obj []⟩
      = .ok (Json.num 5)
    ∧ resolveTemplates (Json.obj [("$path", Json.str "input.a.0")])
        ⟨Json.obj [("a", Json.arr [Json.num 5])], Json.obj [], Json.obj [], Json.obj []⟩
      = .ok (Json.num 5) := by
  constructor
  · rfl
  · rw [resolveTemplates]
    rfl

/-- C4 (amended): a structured path expression (a one-key `$path`/
`$jsonPath` mapping) resolves through `resolvePathExpression`, preserving
the referenced value's type; a recognized root returns the traversed value
when the traversal succeeds and raises the path-naming resolution failure
when it misses (traversal succeeds through mappings and sequences — JS
objects — and fails on scalars and absent keys); an unrecognized root
raises the unknown-root failure; inline `${...}` interpolation substitutes
the stringified resolved value; no case returns a default. -/
theorem template_resolution_amended :
    (∀ key e context, (key = "$path" ∨ key = "$jsonPath") →
        resolveTemplates (Json.obj [(key, Json.str e)]) context
          = resolvePathExpression e context)
    ∧ (∀ root path context,
        (∀ src, contextRoot root context = some src →
            resolveRoot root path context
              = match getPathValue src path with
                | some v => .ok v
                | none => .error (resolutionFailMsg root path))
        ∧ (contextRoot root context = none →
            resolveRoot root path context = .error (unknownRootMsg root)))
    ∧ (∀ root path context,
        (∀ src, contextRoot root context = some src →
            resolveRootString root path context
              = match getPathValue src path with
                | some v => .ok (jsToString v)
                | none => .error (resolutionFailMsg root path))
        ∧ (contextRoot root context = none →
            resolveRootString root path context = .error (unknownRootMsg root)))
    ∧ (∀ s context b e a, findExpr s.data = some (b, e, a) →
        resolveTemplateString s context
          = do
              let rep ← resolveExprToString (String.mk e) context
              let restRes ← replaceTemplates a context
              pure (String.mk b ++ rep ++ restRes))
    ∧ (∀ s context, findExpr s.data = none →
        resolveTemplateString s context = .ok s) := by
  refine ⟨?_, ?_, ?_, ?_, ?_⟩
  · intro key e context hkey
    rcases hkey with hkey | hkey <;> subst hkey
    · rw [resolveTemplates]
      simp [isPathExpression, List.lookup]
    · rw [resolveTemplates]
      simp [isPathExpression, List.lookup]
  · intro root path context
    constructor
    · intro src hsrc
      simp only [contextRoot] at hsrc
      split at hsrc
      all_goals cases hsrc
      all_goals rfl
    · intro hnone
      simp only [contextRoot] at hnone
      split at hnone
      all_goals try exact Option.noConfusion hnone
      all_goals simp only [resolveRoot]
      all_goals split <;> simp_all
  · intro root path context
    constructor
    · intro src hsrc
      simp only [contextRoot] at hsrc
      split at hsrc
      all_goals cases hsrc
      all_goals rfl
    · intro hnone
      simp only [contextRoot] at hnone
      split at hnone
      all_goals try exact Option.noConfusion hnone
      all_goals simp only [resolveRootString]
      all_goals split <;> simp_all
  · intro s context b e a hf
    show replaceTemplates s.data context = _
    rw [replaceTemplates]
    rw [hf]
    rfl
  · intro s context hf
    show replaceTemplates s.data context = _
    rw [replaceTemplates]
    rw [hf]

/-- C4 witness: a present key resolves to its value with the type kept. -/
theorem template_resolution_amended_witness :
    resolveTemplates (Json.obj [("$path", Json.str "input.x")])
        ⟨Json.obj [("x", Json.num 7)], Json.obj [], Json.obj [], Json.obj []⟩
      = .ok (Json.num 7) := by
  rw [template_resolution_amended.1 "$path" "input.x"
    ⟨Json.obj [("x", Json.num 7)], Json.obj [], Json.obj [], Json.obj []⟩ (Or.inl rfl)]
  rw [show resolvePathExpression "input.x"
      ⟨Json.obj [("x", Json.num 7)], Json.obj [], Json.obj [], Json.obj []⟩
    = resolveRoot "input" "x"
      ⟨Json.obj [("x", Json.num 7)], Json.obj [], Json.obj [], Json.obj []⟩ from rfl]
  rw [(template_resolution_amended.2.1 "input" "x"
      ⟨Json.obj [("x", Json.num 7)], Json.obj [], Json.obj [], Json.obj []⟩).1
    (Json.obj [("x", Json.num 7)]) rfl]
  rfl

/-! ## C5 -/

/-- Spec-side: the `<path>.id` of the first (prior) occurrence of an id in
the already-visited prefix. -/
def firstPathOf (seenList : List (String × String)) (id : String) : Option String :=
  (seenList.find? (fun q => decide (q.1 = id))).map Prod.snd

/-- Spec-side reading of the claim: walking the visited ids in order, every
occurrence of an id after its first yields exactly one error citing the
duplicate's own location and the first occurrence's location. -/
def dupIssuesSpec : List (String × String) → List (String × String) → List SchemaIssue
  | [], _ => []
  | (id, path) :: rest, seenList =>
      (match firstPathOf seenList id with
       | some fp => [⟨dupMsg id (fp ++ ".id"), path ++ ".id", Severity.error⟩]
       | none => [])
      ++ dupIssuesSpec rest (seenList ++ [(id, path)])

theorem firstPathOf_append_single (seenList : List (String × String)) (x : String × String)
    (id : String) :
    firstPathOf (seenList ++ [x]) id
      = match firstPathOf seenList id with
        | some fp => some fp
        | none => if x.1 = id then some x.2 else none := by
  simp only [firstPathOf]
  rw [List.find?_append]
  cases hfind : List.find? (fun q => decide (q.1 = id)) seenList with
  | some q => simp
  | none =>
      by_cases hx : x.1 = id
      · simp [List.find?, hx]
      · simp [List.find?, hx]

theorem uniqueAux_eq_spec :
    ∀ (vs : List (String × String)) (seen seenList : List (String × String)),
    (∀ id, seen.lookup id = (firstPathOf seenList id).map (fun q => q ++ ".id")) →
    uniqueAux vs seen = dupIssuesSpec vs seenList := by
  intro vs
  induction vs with
  | nil => intro seen seenList hinv; rfl
  | cons hd rest ih =>
    intro seen seenList hinv
    obtain ⟨id, path⟩ := hd
    have hl := hinv id
    cases hfp : firstPathOf seenList id with
    | some fp =>
        rw [hfp] at hl
        simp only [Option.map_some'] at hl
        simp only [uniqueAux, dupIssuesSpec, hfp, hl]
        rw [List.singleton_append]
        congr 1
        apply ih
        intro id'
        rw [hinv id']
        rw [firstPathOf_append_single]
        cases hfind : firstPathOf seenList id' with
        | some q => simp
        | none =>
            by_cases hid : id = id'
            · subst hid
              rw [hfind] at hfp
              exact absurd hfp (by simp)
            · simp [hid]
    | none =>
        rw [hfp] at hl
        simp only [Option.map_none'] at hl
        simp only [uniqueAux, dupIssuesSpec, hfp, hl]
        rw [List.nil_append]
        apply ih
        intro id'
        rw [List.lookup]
        rw [firstPathOf_append_single]
        by_cases hid : id' = id
        · subst hid
          simp only [hfp]
          simp
        · have hne : (id' == id) = false := by simp [hid]
          rw [hne]
          simp only [Bool.false_eq_true, if_false]
          rw [hinv id']
          cases hfind : firstPathOf seenList id' with
          | some q => simp
          | none =>
              rw [if_neg (fun h : id = id' => hid h.symm)]

/-- Every dup-spec issue per occurrence-after-first, with the prior
occurrence taken as the first one; a tree of distinct ids yields none. -/
theorem dupIssuesSpec_nil_of_nodup :
    ∀ (vs seenList : List (String × String)),
    (((seenList ++ vs).map Prod.fst).Nodup) → dupIssuesSpec vs seenList = [] := by
  intro vs
  induction vs with
  | nil => intros; rfl
  | cons hd rest ih =>
    intro seenList h
    obtain ⟨id, path⟩ := hd
    have hfp : firstPathOf seenList id = none := by
      simp only [firstPathOf, Option.map_eq_none']
      rw [List.find?_eq_none]
      intro q hq
      simp only [decide_eq_true_eq]
      intro hq1
      rw [List.map_append, List.nodup_append] at h
      exact h.2.2 (List.mem_map_of_mem Prod.fst hq) (by simp [hq1])
    simp only [dupIssuesSpec, hfp]
    rw [List.nil_append]
    apply ih
    have : seenList ++ (id, path) :: rest = (seenList ++ [(id, path)]) ++ rest := by
      simp
    rw [this] at h
    exact h

/-- C5: `validateUniqueStepIds` equals the per-occurrence reading of the
claim — walking the visited (id, path) pairs of the whole tree (nested
branch arms, parallel members and loop bodies included), every occurrence
of an id after its first yields exactly one error-severity issue at the
duplicate's `<path>.id`, whose message cites the prior (first) occurrence's
`<path>.id` — and a tree whose visited ids are all distinct yields no
duplicate-id issue. -/
theorem validateUniqueStepIds_spec (steps : List StepSpec) (basePath : String) :
    validateUniqueStepIds steps basePath = dupIssuesSpec (visitIds steps basePath) []
    ∧ (((visitIds steps basePath).map Prod.fst).Nodup →
        validateUniqueStepIds steps basePath = []) := by
  have h1 : validateUniqueStepIds steps basePath
      = dupIssuesSpec (visitIds steps basePath) [] :=
    uniqueAux_eq_spec (visitIds steps basePath) [] [] (fun id => rfl)
  refine ⟨h1, fun hnd => ?_⟩
  rw [h1]
  exact dupIssuesSpec_nil_of_nodup (visitIds steps basePath) [] (by simpa using hnd)

/-- C5 witness: two steps sharing the id `dup` yield exactly one error
citing both locations, and a pair of distinct ids yields none. -/
theorem validateUniqueStepIds_spec_witness :
    validateUniqueStepIds
        [.step "dup" (Json.obj []) (Json.obj []) "one" none none none,
         .step "dup" (Json.obj []) (Json.obj []) "two" none none none] "wf.steps"
      = [⟨dupMsg "dup" "wf.steps.0.id", "wf.steps.1.id", Severity.error⟩]
    ∧ validateUniqueStepIds
        [.step "a" (Json.obj []) (Json.obj []) "one" none none none,
         .step "b" (Json.obj []) (Json.obj []) "two" none none none] "wf.steps"
      = [] := by
  constructor
  · rw [(validateUniqueStepIds_spec
      [.step "dup" (Json.obj []) (Json.obj []) "one" none none none,
       .step "dup" (Json.obj []) (Json.obj []) "two" none none none] "wf.steps").1]
    simp [visitIds, visitList, visitListAux, StepSpec.idOf, dupIssuesSpec, firstPathOf,
      List.find?]
    exact ⟨rfl, rfl⟩
  · apply (validateUniqueStepIds_spec
      [.step "a" (Json.obj []) (Json.obj []) "one" none none none,
       .step "b" (Json.obj []) (Json.obj []) "two" none none none] "wf.steps").2
    simp [visitIds, visitList, visitListAux, StepSpec.idOf]

/-! ## C3 -/

/-- C3 counterexample: a `map` entry sourced `from: step` whose `stepId`
names a step defined only LATER in the same sequence — hence not "defined
earlier in that scope" — produces no issue at all, because the validator
collects the ids of every step of the sequence up front; the claim's
"exactly one error-severity issue" for such an entry is refuted. -/
theorem mapping_scope_counterexample :
    validateSequence
      [.map [("a", Json.obj [("from", Json.str "step"), ("stepId", Json.str "later"),
          ("path", Json.str "x")])] none,
       .step "later" (Json.obj []) (Json.obj []) "act" none none none]
      "wf" .warn (some (Json.obj [])) = [] := by
  simp [validateSequence, validateSequenceAux, collectIds, StepSpec.idOf, validateMappings,
    mappingEntryIssues, Json.isObjectLike, Json.hasField, Json.getField, optIsStr, optIsString,
    validateSchemaCompatibility, normalizeSchema, getSchemaType, typeIncludes, isNullable,
    getUnionSchemas, isEnumCompatible, scalarConstraintKeys, constraintKeys,
    StepSpec.inputSchemaOf, StepSpec.outputSchemaOf, opaqueObjectSchema] <;> try rfl

/-- C3 (amended): a `from: step` mapping entry with a string `stepId` yields
exactly one error-severity issue citing the unknown step reference precisely
when the id is absent from the scope's available ids, and no issue when it
is present; a `map` step (and a sub-workflow's input remapping) checks its
entries against the scope's id list unchanged; and that scope is the id set
of ALL steps of the sequence, collected up front — not only the steps
defined earlier. -/
theorem mapping_scope_amended :
    (∀ (avail : List String) (path k sid : String),
      mappingEntryIssues avail path k
          (Json.obj [("from", Json.str "step"), ("stepId", Json.str sid)])
        = if avail.contains sid then []
          else [⟨unknownStepMsg sid, path ++ "." ++ k, Severity.error⟩])
    ∧ (∀ (mappings : List (String × Json)) (oid : Option String) (rest : List StepSpec)
        (idx : Nat) (path : String) (mode : Mode) (prev : Option Json) (avail : List String),
      validateSequenceAux (.map mappings oid :: rest) idx path mode prev avail
        = validateMappings mappings avail (path ++ ".map." ++ toString idx)
          ++ validateSequenceAux rest (idx + 1) path mode (some opaqueObjectSchema) avail)
    ∧ (∀ (wid : String) (m : List (String × Json)) (rest : List StepSpec)
        (idx : Nat) (path : String) (mode : Mode) (prev : Option Json) (avail : List String),
      validateSequenceAux (.workflow wid (some m) :: rest) idx path mode prev avail
        = validateMappings m avail (path ++ ".workflow." ++ toString idx)
          ++ validateSequenceAux rest (idx + 1) path mode (some opaqueObjectSchema) avail)
    ∧ (∀ (steps : List StepSpec) (path : String) (mode : Mode) (i : Option Json),
      validateSequence steps path mode i
        = validateSequenceAux steps 0 path mode i (collectIds steps)) := by
  refine ⟨?_, ?_, ?_, ?_⟩
  · intro avail path k sid
    by_cases h : sid ∈ avail <;>
      simp [mappingEntryIssues, Json.isObjectLike, Json.hasField, Json.getField, optIsStr,
        optIsString, List.lookup, h]
  · intro mappings oid rest idx path mode prev avail
    simp only [validateSequenceAux]
  · intro wid m rest idx path mode prev avail
    simp only [validateSequenceAux]
  · intro steps path mode i
    rfl

/-! ## C7 -/

theorem mem_ifIssue {c : Prop} [Decidable c] {m p : String} {i : SchemaIssue}
    (h : i ∈ if c then [(⟨m, p, Severity.error⟩ : SchemaIssue)] else []) :
    i.severity = Severity.error := by
  split at h
  · simp at h; subst h; rfl
  · simp at h

theorem armHandlerIssues_severity (r : HandlerRegistry) (path : String) :
    ∀ (arms : List (CondSpec × List StepSpec)) (bIdx : Nat) (i : SchemaIssue),
    i ∈ armHandlerIssues r path arms bIdx → i.severity = Severity.error := by
  intro arms
  induction arms with
  | nil => intro bIdx i h; simp [armHandlerIssues] at h
  | cons a rest ih =>
      intro bIdx i h
      obtain ⟨c, s⟩ := a
      rw [armHandlerIssues, List.mem_append] at h
      rcases h with h | h
      · exact mem_ifIssue h
      · exact ih _ i h

theorem stepHandlerIssues_severity (r : HandlerRegistry) (step : StepSpec) (path : String)
    (i : SchemaIssue) (hi : i ∈ stepHandlerIssues r step path) :
    i.severity = Severity.error := by
  rw [stepHandlerIssues.eq_def] at hi
  simp only [List.mem_append] at hi
  rcases hi with ((h1 | h2) | h3) | h4
  · cases ha : step.actionOf <;> rw [ha] at h1
    · exact absurd h1 (by simp)
    · exact mem_ifIssue h1
  · cases ha : step.agentFieldOf <;> rw [ha] at h2
    · exact absurd h2 (by simp)
    · exact mem_ifIssue h2
  · cases ha : step.toolFieldOf <;> rw [ha] at h3
    · exact absurd h3 (by simp)
    · exact mem_ifIssue h3
  · cases step
    case branch arms => exact armHandlerIssues_severity r path arms 0 i h4
    case dowhile body cond => exact mem_ifIssue h4
    case dountil body cond => exact mem_ifIssue h4
    case workflow wid m => exact mem_ifIssue h4
    all_goals exact absurd h4 (by simp)

theorem validateHandlers_severity (steps : List StepSpec) (basePath : String)
    (r : HandlerRegistry) (i : SchemaIssue) (hi : i ∈ validateHandlers steps basePath r) :
    i.severity = Severity.error := by
  rw [validateHandlers] at hi
  rw [List.mem_flatMap] at hi
  obtain ⟨sp, _, hmem⟩ := hi
  exact stepHandlerIssues_severity r sp.1 sp.2 i hmem

/-- C7 counterexample: a memory leaf step whose declared handler target
`memory.mh` is absent from the (empty) supplied registry yields NO issue at
all from validation — the claim's "every leaf step whose declared handler
target is absent yields an error" is refuted for the memory / vectorStore /
rag / http / logger / requestContext / network / evals and typed-namespace
leaf kinds, which are never handler-checked. -/
theorem handler_check_counterexample :
    validateWorkflowSchemas
      { id := "wf", inputSchema := Json.obj [], outputSchema := Json.obj [],
        steps := [.handlerStep .memory "m1" (Json.obj []) (Json.obj []) "mh" none none] }
      (some {}) = []
    ∧ handlerExists {} "memory.mh" = false := by
  constructor
  · simp [validateWorkflowSchemas, validateSequence, validateSequenceAux, collectIds,
      StepSpec.idOf, validateSchemaCompatibility, normalizeSchema, getSchemaType, typeIncludes,
      isNullable, getUnionSchemas, isEnumCompatible, scalarConstraintKeys, constraintKeys,
      StepSpec.inputSchemaOf, StepSpec.outputSchemaOf, validateUniqueStepIds, visitIds,
      visitList, visitListAux, uniqueAux, validateHandlers, stepHandlerIssues,
      StepSpec.actionOf, StepSpec.agentFieldOf, StepSpec.toolFieldOf] <;> try rfl
  · rfl

/-- C7 (amended): with a registry supplied, every handler-existence issue is
error-severity; but only the `action` / `agent` / `tool` fields of leaf
steps are checked (so generic steps, agent steps, tool steps, and — via the
TOOL bucket, not the mcp bucket — mcp steps), together with branch-arm
conditions, dowhile/dountil conditions and workflow references; leaf steps
of the memory-family, typed and network / evals kinds are never
handler-checked. -/
theorem validateHandlers_spec :
    (∀ (steps : List StepSpec) (basePath : String) (r : HandlerRegistry),
      (validateHandlers steps basePath r).Forall (fun i => i.severity = Severity.error))
    ∧ (∀ (r : HandlerRegistry) (path : String) (ns : HandlerNs) (id : String) (is os : Json)
        (h : String) (p : Option Json) (d : Option String),
      stepHandlerIssues r (.handlerStep ns id is os h p d) path = [])
    ∧ (∀ (r : HandlerRegistry) (path : String) (ns : TypedNs) (id : String) (is os : Json)
        (d : Option String),
      stepHandlerIssues r (.typedStep ns id is os d) path = [])
    ∧ (∀ (r : HandlerRegistry) (path id : String) (is os : Json) (n : String)
        (d : Option String),
      stepHandlerIssues r (.network id is os n d) path = [])
    ∧ (∀ (r : HandlerRegistry) (path id : String) (is os : Json) (sc : String)
        (d : Option String),
      stepHandlerIssues r (.evals id is os sc d) path = [])
    ∧ (∀ (r : HandlerRegistry) (path id : String) (is os : Json) (a : String)
        (prm : Option Json) (rt : Option Int) (d : Option String),
      stepHandlerIssues r (.step id is os a prm rt d) path
        = if handlerExists r ("handlers." ++ a) then []
          else [⟨missingHandlerIssueMsg a, path ++ ".action", Severity.error⟩])
    ∧ (∀ (r : HandlerRegistry) (path id : String) (is os : Json) (a : String)
        (prm : Option Json) (d : Option String),
      stepHandlerIssues r (.agent id is os a prm d) path
        = if handlerExists r ("agent." ++ a) then []
          else [⟨missingAgentIssueMsg a, path ++ ".agent", Severity.error⟩])
    ∧ (∀ (r : HandlerRegistry) (path id : String) (is os : Json) (t : String)
        (prm : Option Json) (d : Option String),
      stepHandlerIssues r (.tool id is os t prm d) path
        = if handlerExists r ("tool." ++ t) then []
          else [⟨missingToolIssueMsg t, path ++ ".tool", Severity.error⟩])
    ∧ (∀ (r : HandlerRegistry) (path id : String) (is os : Json) (srv t : String)
        (d : Option String),
      stepHandlerIssues r (.mcp id is os srv t d) path
        = if handlerExists r ("tool." ++ t) then []
          else [⟨missingToolIssueMsg t, path ++ ".tool", Severity.error⟩])
    ∧ (∀ (r : HandlerRegistry) (path : String) (body : StepSpec) (cond : CondSpec),
      stepHandlerIssues r (.dowhile body cond) path
        = if handlerExists r cond.handler then []
          else [⟨missingHandlerIssueMsg cond.handler, path ++ ".condition.handler",
                 Severity.error⟩])
    ∧ (∀ (r : HandlerRegistry) (path : String) (body : StepSpec) (cond : CondSpec),
      stepHandlerIssues r (.dountil body cond) path
        = if handlerExists r cond.handler then []
          else [⟨missingHandlerIssueMsg cond.handler, path ++ ".condition.handler",
                 Severity.error⟩])
    ∧ (∀ (r : HandlerRegistry) (path wid : String)
        (m : Option (List (String × Json))),
      stepHandlerIssues r (.workflow wid m) path
        = if (r.workflows.lookup wid).isSome then []
          else [⟨missingWorkflowIssueMsg wid, path ++ ".workflowId", Severity.error⟩])
    ∧ (∀ (r : HandlerRegistry) (path : String) (arms : List (CondSpec × List StepSpec)),
      stepHandlerIssues r (.branch arms) path = armHandlerIssues r path arms 0)
    ∧ (∀ (r : HandlerRegistry) (path : String) (c : CondSpec) (s : List StepSpec)
        (rest : List (CondSpec × List StepSpec)) (bIdx : Nat),
      armHandlerIssues r path ((c, s) :: rest) bIdx
        = (if handlerExists r c.handler then []
           else [⟨missingHandlerIssueMsg c.handler,
                  path ++ ".branches." ++ toString bIdx ++ ".when.handler", Severity.error⟩])
          ++ armHandlerIssues r path rest (bIdx + 1))
    ∧ (∀ (spec : WorkflowSpec) (r : HandlerRegistry),
      validateWorkflowSchemas spec (some r)
        = (validateSequence spec.steps spec.id
             ((spec.options.bind (fun o => o.schemaCompatibility)).getD .warn)
             (some spec.inputSchema)
           ++ validateUniqueStepIds spec.steps (spec.id ++ ".steps"))
          ++ validateHandlers spec.steps (spec.id ++ ".steps") r) := by
  refine ⟨?_, ?_, ?_, ?_, ?_, ?_, ?_, ?_, ?_, ?_, ?_, ?_, ?_, ?_, ?_⟩
  · intro steps basePath r
    rw [List.forall_iff_forall_mem]
    intro i hi
    exact validateHandlers_severity steps basePath r i hi
  · intro r path ns id is os h p d; rfl
  · intro r path ns id is os d; rfl
  · intro r path id is os n d; rfl
  · intro r path id is os sc d; rfl
  · intro r path id is os a prm rt d
    cases h : handlerExists r ("handlers." ++ a) <;>
      simp [stepHandlerIssues, StepSpec.actionOf, StepSpec.agentFieldOf,
        StepSpec.toolFieldOf, h]
  · intro r path id is os a prm d
    cases h : handlerExists r ("agent." ++ a) <;>
      simp [stepHandlerIssues, StepSpec.actionOf, StepSpec.agentFieldOf,
        StepSpec.toolFieldOf, h]
  · intro r path id is os t prm d
    cases h : handlerExists r ("tool." ++ t) <;>
      simp [stepHandlerIssues, StepSpec.actionOf, StepSpec.agentFieldOf,
        StepSpec.toolFieldOf, h]
  · intro r path id is os srv t d
    cases h : handlerExists r ("tool." ++ t) <;>
      simp [stepHandlerIssues, StepSpec.actionOf, StepSpec.agentFieldOf,
        StepSpec.toolFieldOf, h]
  · intro r path body cond
    cases h : handlerExists r cond.handler <;>
      simp [stepHandlerIssues, StepSpec.actionOf, StepSpec.agentFieldOf,
        StepSpec.toolFieldOf, h]
  · intro r path body cond
    cases h : handlerExists r cond.handler <;>
      simp [stepHandlerIssues, StepSpec.actionOf, StepSpec.agentFieldOf,
        StepSpec.toolFieldOf, h]
  · intro r path wid m
    cases h : r.workflows.lookup wid <;>
      simp [stepHandlerIssues, StepSpec.actionOf, StepSpec.agentFieldOf,
        StepSpec.toolFieldOf, h]
  · intro r path arms; rfl
  · intro r path c s rest bIdx
    cases h : handlerExists r c.handler <;> simp [armHandlerIssues, h]
  · intro spec r; rfl

/-! ## C1 -/

/-- C1 counterexample: validation reports zero error-severity issues, yet
`compileWorkflow` raises a compile failure, and its message is not the
newline-joined validation-error message; the claim's "if and only if" is
refuted.  Two builds fail this way: a memory leaf step whose handler is
absent from the registry (handler resolution during the build), and a
top-level mcp step — even with its tool registered — because the
leaf-dispatch list of `applySteps` omits `mcp` and the step falls through
to the unsupported-step-type throw. -/
theorem compile_gate_counterexample :
    (((validateWorkflowSchemas
        { id := "wf", inputSchema := Json.obj [], outputSchema := Json.obj [],
          steps := [.handlerStep .memory "m1" (Json.obj []) (Json.obj []) "mh" none none] }
        (some {})).filter (fun issue => issue.severity = Severity.error) = [])
    ∧ compileWorkflow
        { id := "wf", inputSchema := Json.obj [], outputSchema := Json.obj [],
          steps := [.handlerStep .memory "m1" (Json.obj []) (Json.obj []) "mh" none none] }
        {} = .error "Missing handler: memory.mh")
    ∧ (((validateWorkflowSchemas
        { id := "wf", inputSchema := Json.obj [], outputSchema := Json.obj [],
          steps := [.mcp "m1" (Json.obj []) (Json.obj []) "srv" "t1" none] }
        (some { tools := ["t1"], mcp := ["srv.t1"] })).filter
          (fun issue => issue.severity = Severity.error) = [])
    ∧ compileWorkflow
        { id := "wf", inputSchema := Json.obj [], outputSchema := Json.obj [],
          steps := [.mcp "m1" (Json.obj []) (Json.obj []) "srv" "t1" none] }
        { tools := ["t1"], mcp := ["srv.t1"] }
        = .error "Unsupported step type: mcp") := by
  refine ⟨⟨?_, ?_⟩, ?_, ?_⟩
  · have hv : validateWorkflowSchemas
        { id := "wf", inputSchema := Json.obj [], outputSchema := Json.obj [],
          steps := [.handlerStep .memory "m1" (Json.obj []) (Json.obj []) "mh" none none] }
        (some {}) = [] := by
      simp [validateWorkflowSchemas, validateSequence, validateSequenceAux, collectIds,
        StepSpec.idOf, validateSchemaCompatibility, normalizeSchema, getSchemaType,
        typeIncludes, isNullable, getUnionSchemas, isEnumCompatible, scalarConstraintKeys,
        constraintKeys, StepSpec.inputSchemaOf, StepSpec.outputSchemaOf,
        validateUniqueStepIds, visitIds, visitList, visitListAux, uniqueAux,
        validateHandlers, stepHandlerIssues, StepSpec.actionOf, StepSpec.agentFieldOf,
        StepSpec.toolFieldOf] <;> try rfl
    rw [hv]
    rfl
  · simp [compileWorkflow, validateWorkflowSchemas, validateSequence, validateSequenceAux,
      collectIds, StepSpec.idOf, validateSchemaCompatibility, normalizeSchema, getSchemaType,
      typeIncludes, isNullable, getUnionSchemas, isEnumCompatible, scalarConstraintKeys,
      constraintKeys, StepSpec.inputSchemaOf, StepSpec.outputSchemaOf, validateUniqueStepIds,
      visitIds, visitList, visitListAux, uniqueAux, validateHandlers, stepHandlerIssues,
      StepSpec.actionOf, StepSpec.agentFieldOf, StepSpec.toolFieldOf, applySteps, buildStep,
      HandlerNs.typeName, resolveHandler, jsSplit, jsSplitAux, splitHandlerId,
      bucketNames] <;> try rfl
  · have hv : validateWorkflowSchemas
        { id := "wf", inputSchema := Json.obj [], outputSchema := Json.obj [],
          steps := [.mcp "m1" (Json.obj []) (Json.obj []) "srv" "t1" none] }
        (some { tools := ["t1"], mcp := ["srv.t1"] }) = [] := by
      simp [validateWorkflowSchemas, validateSequence, validateSequenceAux, collectIds,
        StepSpec.idOf, validateSchemaCompatibility, normalizeSchema, getSchemaType,
        typeIncludes, isNullable, getUnionSchemas, isEnumCompatible, scalarConstraintKeys,
        constraintKeys, StepSpec.inputSchemaOf, StepSpec.outputSchemaOf,
        validateUniqueStepIds, visitIds, visitList, visitListAux, uniqueAux,
        validateHandlers, stepHandlerIssues, StepSpec.actionOf, StepSpec.agentFieldOf,
        StepSpec.toolFieldOf, handlerExists, splitHandlerId, jsSplit, jsSplitAux] <;> try rfl
    rw [hv]
    rfl
  · simp [compileWorkflow, validateWorkflowSchemas, validateSequence, validateSequenceAux,
      collectIds, StepSpec.idOf, validateSchemaCompatibility, normalizeSchema, getSchemaType,
      typeIncludes, isNullable, getUnionSchemas, isEnumCompatible, scalarConstraintKeys,
      constraintKeys, StepSpec.inputSchemaOf, StepSpec.outputSchemaOf, validateUniqueStepIds,
      visitIds, visitList, visitListAux, uniqueAux, validateHandlers, stepHandlerIssues,
      StepSpec.actionOf, StepSpec.agentFieldOf, StepSpec.toolFieldOf, applySteps,
      handlerExists, unsupportedStepTypeMsg, jsSplit, jsSplitAux, splitHandlerId,
      bucketNames] <;> try rfl

/-- C1 (amended): `compileWorkflow` raises a compile failure with the
newline-joined path-prefixed message whenever validation reports at least
one error-severity issue; with zero validation errors it is exactly the
graph-building run (which can itself still fail, e.g. on handler
resolution, or on a top-level mcp step, a type the build does not
support), and any success carries zero validation errors together with
exactly the validator's warning-severity issues. -/
theorem compileWorkflow_gate (spec : WorkflowSpec) (r : HandlerRegistry) :
    ((validateWorkflowSchemas spec (some r)).filter
        (fun issue => issue.severity = Severity.error) ≠ [] →
      compileWorkflow spec r = .error (schemaValidationFailedMsg
        ((validateWorkflowSchemas spec (some r)).filter
          (fun issue => issue.severity = Severity.error))))
    ∧ ((validateWorkflowSchemas spec (some r)).filter
        (fun issue => issue.severity = Severity.error) = [] →
      compileWorkflow spec r
        = (applySteps
            (Graph.mk spec.id (toZod spec.inputSchema) (toZod spec.outputSchema)
              (spec.stateSchema.map toZod) (spec.requestContextSchema.map toZod)
              spec.options [])
            spec.steps r).map
            (fun b => (b, (validateWorkflowSchemas spec (some r)).filter
              (fun issue => issue.severity = Severity.warning))))
    ∧ (∀ (g : Graph) (ws : List SchemaIssue), compileWorkflow spec r = .ok (g, ws) →
        (validateWorkflowSchemas spec (some r)).filter
          (fun issue => issue.severity = Severity.error) = []
        ∧ ws = (validateWorkflowSchemas spec (some r)).filter
            (fun issue => issue.severity = Severity.warning)) := by
  refine ⟨?_, ?_, ?_⟩
  · intro hne
    have hl : 0 < ((validateWorkflowSchemas spec (some r)).filter
        (fun issue => issue.severity = Severity.error)).length :=
      List.length_pos.mpr hne
    simp only [compileWorkflow]
    rw [if_pos hl]
  · intro he
    simp only [compileWorkflow, he]
    simp only [List.length_nil, gt_iff_lt, Nat.lt_irrefl, if_false]
    cases happ : applySteps
        (Graph.mk spec.id (toZod spec.inputSchema) (toZod spec.outputSchema)
          (spec.stateSchema.map toZod) (spec.requestContextSchema.map toZod)
          spec.options []) spec.steps r with
    | error e => rfl
    | ok b => rfl
  · intro g ws h
    simp only [compileWorkflow] at h
    split at h
    · exact absurd h (by simp)
    · rename_i hlen
      have he : (validateWorkflowSchemas spec (some r)).filter
          (fun issue => issue.severity = Severity.error) = [] := by
        rcases Nat.eq_zero_or_pos ((validateWorkflowSchemas spec (some r)).filter
            (fun issue => issue.severity = Severity.error)).length with h0 | hp
        · exact List.eq_nil_of_length_eq_zero h0
        · exact absurd hp hlen
      refine ⟨he, ?_⟩
      cases happ : applySteps
          (Graph.mk spec.id (toZod spec.inputSchema) (toZod spec.outputSchema)
            (spec.stateSchema.map toZod) (spec.requestContextSchema.map toZod)
            spec.options []) spec.steps r with
      | error e => rw [happ] at h; exact absurd h (by simp [Bind.bind, Except.bind])
      | ok b =>
          rw [happ] at h
          rw [except_bind_ok] at h
          cases h
          rfl

/-- C1 witness: a workflow with a duplicate step id (one error-severity
validation issue) compiles to the failure carrying the newline-joined
error message. -/
theorem compileWorkflow_gate_witness :
    compileWorkflow
      { id := "wf", inputSchema := Json.obj [], outputSchema := Json.obj [],
        steps := [.step "dup" (Json.obj []) (Json.obj []) "one" none none none,
                  .step "dup" (Json.obj []) (Json.obj []) "two" none none none] }
      { handlers := ["one", "two"] }
      = .error (schemaValidationFailedMsg
          ((validateWorkflowSchemas
            { id := "wf", inputSchema := Json.obj [], outputSchema := Json.obj [],
              steps := [.step "dup" (Json.obj []) (Json.obj []) "one" none none none,
                        .step "dup" (Json.obj []) (Json.obj []) "two" none none none] }
            (some { handlers := ["one", "two"] })).filter
              (fun issue => issue.severity = Severity.error))) := by
  apply (compileWorkflow_gate
    { id := "wf", inputSchema := Json.obj [], outputSchema := Json.obj [],
      steps := [.step "dup" (Json.obj []) (Json.obj []) "one" none none none,
                .step "dup" (Json.obj []) (Json.obj []) "two" none none none] }
    { handlers := ["one", "two"] }).1
  have hv : validateWorkflowSchemas
      { id := "wf", inputSchema := Json.obj [], outputSchema := Json.obj [],
        steps := [.step "dup" (Json.obj []) (Json.obj []) "one" none none none,
                  .step "dup" (Json.obj []) (Json.obj []) "two" none none none] }
      (some { handlers := ["one", "two"] })
      = [⟨dupMsg "dup" "wf.steps.0.id", "wf.steps.1.id", Severity.error⟩] := by
    simp [validateWorkflowSchemas, validateSequence, validateSequenceAux, collectIds,
      StepSpec.idOf, validateSchemaCompatibility, normalizeSchema, getSchemaType,
      typeIncludes, isNullable, getUnionSchemas, isEnumCompatible, scalarConstraintKeys,
      constraintKeys, StepSpec.inputSchemaOf, StepSpec.outputSchemaOf,
      validateUniqueStepIds, visitIds, visitList, visitListAux, uniqueAux, dupMsg, sq,
      validateHandlers, stepHandlerIssues, StepSpec.actionOf, StepSpec.agentFieldOf,
      StepSpec.toolFieldOf, handlerExists, splitHandlerId, jsSplit, jsSplitAux] <;>
      first
      | rfl
      | exact ⟨rfl, rfl⟩
  rw [hv]
  simp

/-- C2 witness: a condition resolving to the empty string returns the
not-bailed marker. -/
theorem bail_step_semantics_witness :
    bailExecute (some "${input.flag}") (Json.obj [])
        (Json.obj [("flag", Json.str "")]) = .ok (.notBailed notBailedMarker) :=
  bail_step_semantics.2.2.2 "${input.flag}" (Json.obj [])
    (Json.obj [("flag", Json.str "")])
    (by simp [resolveTemplateString, replaceTemplates, findExpr, startMatch, takeUntilRBrace,
      resolveExprToString, jsTrim, jsSplit, jsSplitAux, getPathValue, walkPath, Json.jsGet,
      jsToString, dollarChar, lbraceChar, rbraceChar]; rfl)
    (by decide)

end Maestro
